import Mathlib

/-!
# helm-unittest: chart scoping, suite running and the NUnit report

A shallow embedding of `unittest/utils.go`, `unittest/test_suite.go`,
`unittest/assertion_result.go` and `unittest/nunit_report_xml.go`.

Conventions of the embedding:

* a Go `string` is a Lean `String`; the text primitives of the Go standard
  library that the code calls (`strings.Split`, `strings.TrimPrefix`,
  `strings.LastIndex`, `path.Ext`, `strconv.FormatBool`) are written out over
  the characters of the string. Their separators are ASCII, so scanning by
  character and scanning by byte select the same pieces;
* a Go `error` value is an `Option String` holding the text of `Error()`,
  `none` being `nil`;
* a function that returns `(value, error)` returns `Except String value`;
* a run-time panic is an `Except.error`: of an indexing expression, with the
  offending index and the length of the indexed slice; of a read through a
  nil pointer, with `Panic.nilPointerDereference`;
* pointers are replaced by values and mutation by explicit state passing.
-/

set_option autoImplicit false

namespace unittest

/-! ## Text primitives of the Go standard library -/

/-- The value of `filepath.Separator` (`os.PathSeparator`) on a Unix build. -/
def Separator : Char := '/'

/-- The pieces of a character list between occurrences of `sep`. -/
def splitChars (sep : Char) : List Char → List (List Char)
  | [] => [[]]
  | c :: cs =>
    if c = sep then [] :: splitChars sep cs
    else
      match splitChars sep cs with
      | [] => [[c]]
      | piece :: pieces => (c :: piece) :: pieces

/-- Go `strings.Split(s, string(sep))` for a one-character separator. -/
def stringsSplit (s : String) (sep : Char) : List String :=
  (splitChars sep s.data).map String.mk

/-- Strip `pre` from the front of `cs` when it is there. -/
def trimPrefixChars : List Char → List Char → Option (List Char)
  | [], cs => some cs
  | _ :: _, [] => none
  | p :: ps, c :: cs => if p = c then trimPrefixChars ps cs else none

/-- Go `strings.TrimPrefix(s, pre)`: `s` without the leading `pre`, or `s`
itself when it does not start with `pre`. -/
def stringsTrimPrefix (s pre : String) : String :=
  match trimPrefixChars pre.data s.data with
  | some rest => String.mk rest
  | none => s

/-- Backwards scan of `path.Ext`: `rev` is what is still to be read, last
character first, and `acc` the characters already passed. -/
def extScan : List Char → List Char → List Char
  | [], _ => []
  | c :: rest, acc =>
    if c = '/' then []
    else if c = '.' then '.' :: acc
    else extScan rest (c :: acc)

/-- Go `path.Ext(p)`: the suffix starting at the last dot of the last
slash-separated element of `p`, empty when there is no such dot. -/
def pathExt (p : String) : String :=
  String.mk (extScan p.data.reverse [])

/-- Go `strconv.FormatBool`. -/
def strconvFormatBool (b : Bool) : String :=
  if b then "true" else "false"

/-! ## utils.go -/

/-- An indexing panic: the index asked for and the length of the slice. -/
structure IndexOutOfRange where
  index : Nat
  length : Nat
  deriving DecidableEq, Repr

/-- The loop `for r := 0; r < len(routes); r++ { routes[r] = splited[r*2] }`
of `spliteChartRoutes`, started at `r` with `fuel` iterations left. -/
def spliteChartRoutes.loop (splited : List String) :
    Nat → Nat → List String → Except IndexOutOfRange (List String)
  | 0, _, routes => .ok routes
  | fuel + 1, r, routes =>
    match splited[r * 2]? with
    | some name => spliteChartRoutes.loop splited fuel (r + 1) (routes.set r name)
    | none => .error ⟨r * 2, splited.length⟩

/-- Translation of `spliteChartRoutes`. -/
def spliteChartRoutes (routePath : String) : Except IndexOutOfRange (List String) :=
  let splited := stringsSplit routePath Separator
  let routes := List.replicate (splited.length / 2 + 1) ""
  spliteChartRoutes.loop splited routes.length 0 routes

/-- A Go `interface{}` value as it occurs in a values tree decoded from
YAML: a scalar, a list, or a `map[interface{}]interface{}` given by its
entries. -/
inductive Value where
  | null
  | bool (b : Bool)
  | int (n : Int)
  | str (s : String)
  | list (items : List Value)
  | map (entries : List (Value × Value))

/-- A Go `map[interface{}]interface{}`, by its entries. -/
abbrev ValueMap := List (Value × Value)

/-- Translation of `scopeValuesWithRoutes`; `routes[:len(routes)-1]` is
`dropLast` and `routes[len(routes)-1]` is `getLast`. -/
def scopeValuesWithRoutes (routes : List String) (values : ValueMap) : ValueMap :=
  if h : routes.length > 1 then
    scopeValuesWithRoutes routes.dropLast
      [(Value.str (routes.getLast (by intro e; simp [e] at h)), Value.map values)]
  else values
termination_by routes.length
decreasing_by simp [List.length_dropLast]; omega

/-! ## Data model -/

/-- Translation of `AssertionResult` (assertion_result.go). -/
structure AssertionResult where
  Index : Int := 0
  FailInfo : List String := []
  Passed : Bool := false
  AssertType : String := ""
  Not : Bool := false
  CustomInfo : String := ""
  deriving DecidableEq, Repr

/-- Modelled from the spec: the `TestJob` type is declared outside the given
sources. It carries the three fields `polishTestJobsPathInfo` writes, and its
own content (name and assertions) stands as one text. -/
structure TestJob where
  Name : String := ""
  chartRoute : String := ""
  definitionFile : String := ""
  defaultTemplateToAssert : String := ""
  deriving DecidableEq, Repr

/-- Modelled from the spec: the `TestJobResult` type is declared outside the
given sources (section 3 of the specification: ordinal index, display name,
pass flag, duration, optional execution error, assertion results). The
duration is a `time.Duration`, a count of nanoseconds. -/
structure TestJobResult where
  Index : Nat := 0
  DisplayName : String := ""
  Passed : Bool := false
  Duration : Int := 0
  ExecError : Option String := none
  AssertsResult : List AssertionResult := []
  deriving DecidableEq, Repr

/-- Modelled from the spec: the snapshot collaborator `snapshot.Cache`, seen
through the aggregate counts it exposes after a run. -/
structure SnapshotCache where
  Created : Nat := 0
  Compared : Nat := 0
  Failed : Nat := 0
  deriving DecidableEq, Repr

/-- Modelled from the spec: the `TestSuiteResult` type is declared outside the
given sources (section 3 of the specification). Its zero value is the
freshly constructed record. -/
structure TestSuiteResult where
  DisplayName : String := ""
  FilePath : String := ""
  Passed : Bool := false
  ExecError : Option String := none
  TestsResult : List TestJobResult := []
  SnapshotCreated : Nat := 0
  SnapshotCompared : Nat := 0
  SnapshotFailed : Nat := 0
  deriving DecidableEq, Repr

/-- Modelled from the spec: `TestSuiteResult.countSnapshot` is defined outside
the given sources; it records the counts observed on the snapshot
collaborator and writes no other field. -/
def TestSuiteResult.countSnapshot (result : TestSuiteResult) (cache : SnapshotCache) :
    TestSuiteResult :=
  { result with
    SnapshotCreated := cache.Created
    SnapshotCompared := cache.Compared
    SnapshotFailed := cache.Failed }

/-- Modelled from the spec: `TestSuiteResult.calculateTestSuiteDuration` is
defined outside the given sources; it sums the durations of the jobs. -/
def TestSuiteResult.calculateTestSuiteDuration (result : TestSuiteResult) : Int :=
  (result.TestsResult.map (fun test => test.Duration)).sum

/-- Translation of `TestSuite`. -/
structure TestSuite where
  Name : String := ""
  Templates : List String := []
  Tests : List TestJob := []
  definitionFile : String := ""
  chartRoute : String := ""
  deriving DecidableEq, Repr

/-- A template of a v2 package (`v2chart.Template`). -/
structure V2Template where
  Name : String
  Data : String := ""
  deriving DecidableEq, Repr

/-- A v2 package (`v2chart.Chart`); the fields other than `Templates` are
carried along untouched. -/
structure V2Chart where
  Metadata : String := ""
  Templates : List V2Template := []
  Values : String := ""
  Files : List String := []
  deriving DecidableEq, Repr

/-- A file of a v3 package (`v3chart.File`). -/
structure V3File where
  Name : String
  Data : String := ""
  deriving DecidableEq, Repr

/-- A v3 package (`v3chart.Chart`); the fields other than `Templates` are
carried along untouched. -/
structure V3Chart where
  Metadata : String := ""
  Templates : List V3File := []
  Values : String := ""
  Files : List V3File := []
  deriving DecidableEq, Repr

/-- The job collaborator (`TestJob.RunV2`, `TestJob.RunV3`, defined outside
the given sources): it is handed the job, the scoped package, the snapshot
cache and a seed result, and hands back the job result and the cache. -/
abbrev JobRunner (Chart : Type) :=
  TestJob → Chart → SnapshotCache → TestJobResult → TestJobResult × SnapshotCache

/-! ## test_suite.go -/

/-- Translation of `polishTestJobsPathInfo`: the jobs of the suite after the
pass. -/
def TestSuite.polishTestJobsPathInfo (s : TestSuite) : TestSuite :=
  { s with
    Tests := s.Tests.map (fun test =>
      let test := { test with chartRoute := s.chartRoute, definitionFile := s.definitionFile }
      match s.Templates with
      | first :: _ => { test with defaultTemplateToAssert := first }
      | [] => test) }

/-- The error built by `fmt.Errorf` in `prepareV2Chart` and `prepareV3Chart`. -/
def templateNotFound (fileName : String) : String :=
  "template file `templates/" ++ fileName ++ "` not found in chart"

/-- Inner loop of `prepareV2Chart`: the first template whose name without
the `templates/` prefix is `fileName`; `none` is `found == false`. -/
def prepareV2Chart.find (fileName : String) : List V2Template → Option V2Template
  | [] => none
  | template :: rest =>
    if stringsTrimPrefix template.Name "templates/" = fileName then some template
    else prepareV2Chart.find fileName rest

/-- Outer loop of `prepareV2Chart` over the allow-list. -/
def prepareV2Chart.check (targetTemplates : List V2Template) :
    List String → List V2Template → Except String (List V2Template)
  | [], filteredTemplate => .ok filteredTemplate
  | fileName :: rest, filteredTemplate =>
    match prepareV2Chart.find fileName targetTemplates with
    | some template =>
      prepareV2Chart.check targetTemplates rest (filteredTemplate ++ [template])
    | none => .error (templateNotFound fileName)

/-- Last loop of `prepareV2Chart`: append the templates with extension
`.tpl`. -/
def prepareV2Chart.addTpl : List V2Template → List V2Template → List V2Template
  | [], filteredTemplate => filteredTemplate
  | template :: rest, filteredTemplate =>
    if pathExt template.Name = ".tpl" then
      prepareV2Chart.addTpl rest (filteredTemplate ++ [template])
    else prepareV2Chart.addTpl rest filteredTemplate

/-- Translation of `prepareV2Chart`. -/
def TestSuite.prepareV2Chart (s : TestSuite) (targetChart : V2Chart) : Except String V2Chart :=
  let copiedChart := targetChart
  let suiteIsFromRootChart : Bool := (stringsSplit s.chartRoute Separator).length ≤ 1
  if s.Templates.length = 0 ∧ suiteIsFromRootChart = true then .ok copiedChart
  else
    let checked : Except String (List V2Template) :=
      if suiteIsFromRootChart then prepareV2Chart.check targetChart.Templates s.Templates []
      else .ok []
    match checked with
    | .error err => .error err
    | .ok filteredTemplate =>
      .ok { copiedChart with
            Templates := prepareV2Chart.addTpl targetChart.Templates filteredTemplate }

/-- Inner loop of `prepareV3Chart`: the first template whose name without
the `templates/` prefix is `fileName`; `none` is `found == false`. -/
def prepareV3Chart.find (fileName : String) : List V3File → Option V3File
  | [] => none
  | template :: rest =>
    if stringsTrimPrefix template.Name "templates/" = fileName then some template
    else prepareV3Chart.find fileName rest

/-- Outer loop of `prepareV3Chart` over the allow-list. -/
def prepareV3Chart.check (targetTemplates : List V3File) :
    List String → List V3File → Except String (List V3File)
  | [], filteredTemplate => .ok filteredTemplate
  | fileName :: rest, filteredTemplate =>
    match prepareV3Chart.find fileName targetTemplates with
    | some template =>
      prepareV3Chart.check targetTemplates rest (filteredTemplate ++ [template])
    | none => .error (templateNotFound fileName)

/-- Last loop of `prepareV3Chart`: append the templates with extension
`.tpl`. -/
def prepareV3Chart.addTpl : List V3File → List V3File → List V3File
  | [], filteredTemplate => filteredTemplate
  | template :: rest, filteredTemplate =>
    if pathExt template.Name = ".tpl" then
      prepareV3Chart.addTpl rest (filteredTemplate ++ [template])
    else prepareV3Chart.addTpl rest filteredTemplate

/-- Translation of `prepareV3Chart`. -/
def TestSuite.prepareV3Chart (s : TestSuite) (targetChart : V3Chart) : Except String V3Chart :=
  let copiedChart := targetChart
  let suiteIsFromRootChart : Bool := (stringsSplit s.chartRoute Separator).length ≤ 1
  if s.Templates.length = 0 ∧ suiteIsFromRootChart = true then .ok copiedChart
  else
    let checked : Except String (List V3File) :=
      if suiteIsFromRootChart then prepareV3Chart.check targetChart.Templates s.Templates []
      else .ok []
    match checked with
    | .error err => .error err
    | .ok filteredTemplate =>
      .ok { copiedChart with
            Templates := prepareV3Chart.addTpl targetChart.Templates filteredTemplate }

/-- The loop of `runV2TestJobs`, at job number `idx`. The Go code allocates
the result slice at full length and fills position `idx` at each turn; the
positions are visited in order, so the slice is built here by appending. -/
def runV2TestJobs.loop (run : JobRunner V2Chart) (chart : V2Chart) :
    List TestJob → Nat → Bool → List TestJobResult → SnapshotCache →
      (Bool × List TestJobResult) × SnapshotCache
  | [], _, suitePass, jobResults, cache => ((suitePass, jobResults), cache)
  | testJob :: rest, idx, suitePass, jobResults, cache =>
    let out := run testJob chart cache { Index := idx }
    let jobResult := out.1
    runV2TestJobs.loop run chart rest (idx + 1)
      (if !jobResult.Passed then false else suitePass) (jobResults ++ [jobResult]) out.2

/-- Translation of `runV2TestJobs`. -/
def TestSuite.runV2TestJobs (s : TestSuite) (run : JobRunner V2Chart) (chart : V2Chart)
    (cache : SnapshotCache) : (Bool × List TestJobResult) × SnapshotCache :=
  runV2TestJobs.loop run chart s.Tests 0 true [] cache

/-- The loop of `runV3TestJobs`, at job number `idx` (see
`runV2TestJobs.loop` for the result slice). -/
def runV3TestJobs.loop (run : JobRunner V3Chart) (chart : V3Chart) :
    List TestJob → Nat → Bool → List TestJobResult → SnapshotCache →
      (Bool × List TestJobResult) × SnapshotCache
  | [], _, suitePass, jobResults, cache => ((suitePass, jobResults), cache)
  | testJob :: rest, idx, suitePass, jobResults, cache =>
    let out := run testJob chart cache { Index := idx }
    let jobResult := out.1
    runV3TestJobs.loop run chart rest (idx + 1)
      (if !jobResult.Passed then false else suitePass) (jobResults ++ [jobResult]) out.2

/-- Translation of `runV3TestJobs`. -/
def TestSuite.runV3TestJobs (s : TestSuite) (run : JobRunner V3Chart) (chart : V3Chart)
    (cache : SnapshotCache) : (Bool × List TestJobResult) × SnapshotCache :=
  runV3TestJobs.loop run chart s.Tests 0 true [] cache

/-- Translation of `RunV2`: the result record and the snapshot cache after
the run. -/
def TestSuite.RunV2 (s : TestSuite) (run : JobRunner V2Chart) (targetChart : V2Chart)
    (snapshotCache : SnapshotCache) (result : TestSuiteResult) :
    TestSuiteResult × SnapshotCache :=
  let s := s.polishTestJobsPathInfo
  let result := { result with DisplayName := s.Name }
  let result := { result with FilePath := s.definitionFile }
  match s.prepareV2Chart targetChart with
  | .error err => ({ result with ExecError := some err }, snapshotCache)
  | .ok preparedChart =>
    let out := s.runV2TestJobs run preparedChart snapshotCache
    let result := { result with Passed := out.1.1, TestsResult := out.1.2 }
    (result.countSnapshot out.2, out.2)

/-- Translation of `RunV3`: the result record and the snapshot cache after
the run. -/
def TestSuite.RunV3 (s : TestSuite) (run : JobRunner V3Chart) (targetChart : V3Chart)
    (snapshotCache : SnapshotCache) (result : TestSuiteResult) :
    TestSuiteResult × SnapshotCache :=
  let s := s.polishTestJobsPathInfo
  let result := { result with DisplayName := s.Name }
  let result := { result with FilePath := s.definitionFile }
  match s.prepareV3Chart targetChart with
  | .error err => ({ result with ExecError := some err }, snapshotCache)
  | .ok preparedChart =>
    let out := s.runV3TestJobs run preparedChart snapshotCache
    let result := { result with Passed := out.1.1, TestsResult := out.1.2 }
    (result.countSnapshot out.2, out.2)

/-! ## nunit_report_xml.go -/

/-- Go `strings.LastIndex(s, string(c))`, scanning forward: `pos` is the
position of the next character and `found` the last hit so far (`-1` for
none). -/
def lastIndexChars (c : Char) : List Char → Nat → Int → Int
  | [], _, found => found
  | x :: xs, pos, found => lastIndexChars c xs (pos + 1) (if x = c then (pos : Int) else found)

/-- Go `strings.LastIndex(s, string(c))`: position of the last `c`, or `-1`. -/
def stringsLastIndex (s : String) (c : Char) : Int :=
  lastIndexChars c s.data 0 (-1)

/-- Translation of `NUnitFailure`. -/
structure NUnitFailure where
  Message : String
  StackTrace : String
  deriving DecidableEq, Repr

/-- Translation of `NUnitReason`. -/
structure NUnitReason where
  Message : String
  deriving DecidableEq, Repr

/-- Translation of `NUnitTestCase`. -/
structure NUnitTestCase where
  Failure : Option NUnitFailure := none
  Reason : Option NUnitReason := none
  Name : String := ""
  Description : String := ""
  Success : String := ""
  Time : String := ""
  Executed : String := ""
  Asserts : String := ""
  Result : String := ""
  deriving DecidableEq, Repr

/-- Translation of `NUnitTestSuite`. The field `TestSuites` of nested suite
elements is left out: `WriteTestOutput` never writes it. The field `Type` is
spelled `Type_`. -/
structure NUnitTestSuite where
  Failure : Option NUnitFailure := none
  Reason : Option NUnitReason := none
  TestCases : List NUnitTestCase := []
  Type_ : String := ""
  Name : String := ""
  Description : String := ""
  Success : String := ""
  Time : String := ""
  Executed : String := ""
  Asserts : String := ""
  Result : String := ""
  deriving DecidableEq, Repr

/-- Translation of `NUnitEnvironment`. -/
structure NUnitEnvironment where
  NUnitVersion : String := ""
  CLRVersion : String := ""
  OSVersion : String := ""
  Platform : String := ""
  Cwd : String := ""
  MachineName : String := ""
  User : String := ""
  UserDomain : String := ""
  deriving DecidableEq, Repr

/-- Translation of `NUnitCultureInfo`. -/
structure NUnitCultureInfo where
  CurrentCulture : String := ""
  CurrentUICulture : String := ""
  deriving DecidableEq, Repr

/-- Translation of `NUnitTestResults`. The counters are Go `int`s that are
only ever incremented from zero, once per suite or job, so they are natural
numbers here. -/
structure NUnitTestResults where
  Environment : NUnitEnvironment := {}
  CultureInfo : NUnitCultureInfo := {}
  TestSuite : List NUnitTestSuite := []
  Name : String := ""
  Total : Nat := 0
  Errors : Nat := 0
  Failures : Nat := 0
  Inconclusive : Nat := 0
  NotRun : Nat := 0
  Ignored : Nat := 0
  Skipped : Nat := 0
  Invalid : Nat := 0
  Date : String := ""
  Time : String := ""
  deriving DecidableEq, Repr

def OSVersion : String := "unknown"

def CLRVersion : String := "unknown"

def NUnitVersion : String := "2.5.8.0"

def TestFixture : String := "TestFixture"

/-- What `WriteTestOutput` reads from outside the result records: the clock,
the process environment, and three renderings whose code is outside the
embedding (`formatDuration` formats a floating-point number of seconds;
`TestJobResult.stringify` is defined outside the given sources). -/
structure ReportEnv where
  date : String := ""
  time : String := ""
  domainName : String := ""
  userName : String := ""
  cwd : String := ""
  hostName : String := ""
  currentCulture : String := ""
  currentUICulture : String := ""
  platform : String := ""
  formatDuration : Int → String := fun _ => ""
  stringify : TestJobResult → String := fun _ => ""

/-- Translation of `formatResult`. -/
def nUnitReportXML.formatResult (b : Bool) : String :=
  if !b then "Failed" else "Success"

/-- The running counters of `WriteTestOutput`. -/
structure Counters where
  totalTests : Nat := 0
  totalErrors : Nat := 0
  totalFailures : Nat := 0
  deriving DecidableEq, Repr

/-- The test-case element `WriteTestOutput` builds for one job result, its
failure element included. -/
def nUnitReportXML.testCase (env : ReportEnv) (classname : String) (test : TestJobResult) :
    NUnitTestCase :=
  let testCase : NUnitTestCase :=
    { Failure := none
      Name := test.DisplayName
      Description := classname ++ "." ++ test.DisplayName
      Success := strconvFormatBool test.Passed
      Time := env.formatDuration test.Duration
      Executed := strconvFormatBool test.ExecError.isNone
      Asserts := "0"
      Result := nUnitReportXML.formatResult test.Passed }
  if !test.Passed then
    { testCase with Failure := some { Message := "Failed", StackTrace := env.stringify test } }
  else testCase

/-- The counters after the body of the job loop of `WriteTestOutput` has run
for one job result. -/
def nUnitReportXML.countTest (test : TestJobResult) (n : Counters) : Counters :=
  let n := { n with totalTests := n.totalTests + 1 }
  if !test.Passed then
    if test.ExecError.isSome then { n with totalErrors := n.totalErrors + 1 }
    else { n with totalFailures := n.totalFailures + 1 }
  else n

/-- The job loop of `WriteTestOutput` (`for _, test := range
testSuiteResult.TestsResult`) on the counters and the suite element. -/
def nUnitReportXML.testsLoop (env : ReportEnv) (classname : String) :
    List TestJobResult → Counters → NUnitTestSuite → Counters × NUnitTestSuite
  | [], n, ts => (n, ts)
  | test :: rest, n, ts =>
    nUnitReportXML.testsLoop env classname rest (nUnitReportXML.countTest test n)
      { ts with TestCases := ts.TestCases ++ [nUnitReportXML.testCase env classname test] }

/-- The class name `WriteTestOutput` derives from a suite display name. -/
def nUnitReportXML.classname (displayName : String) : String :=
  let classname := displayName
  let idx := stringsLastIndex classname '/'
  if idx > -1 ∧ idx < (displayName.length : Int) then
    String.mk (displayName.data.drop (idx + 1).toNat)
  else classname

/-- The body of the suite loop of `WriteTestOutput` for one suite result:
the counters afterwards and the suite element appended to `testSuites`. -/
def nUnitReportXML.suiteStep (env : ReportEnv) (testSuiteResult : TestSuiteResult)
    (n : Counters) : Counters × NUnitTestSuite :=
  let ts : NUnitTestSuite :=
    { Type_ := TestFixture
      Name := testSuiteResult.DisplayName
      Description := testSuiteResult.FilePath
      Success := strconvFormatBool testSuiteResult.Passed
      Time := env.formatDuration testSuiteResult.calculateTestSuiteDuration
      Executed := strconvFormatBool testSuiteResult.ExecError.isNone
      Result := nUnitReportXML.formatResult testSuiteResult.Passed }
  let classname := nUnitReportXML.classname testSuiteResult.DisplayName
  match testSuiteResult.ExecError with
  | some execError =>
    ({ n with totalTests := n.totalTests + 1, totalErrors := n.totalErrors + 1 },
      { ts with Failure := some { Message := "Error", StackTrace := execError } })
  | none => nUnitReportXML.testsLoop env classname testSuiteResult.TestsResult n ts

/-- The suite loop of `WriteTestOutput` (`for _, testSuiteResult := range
testSuiteResults`) on the counters, `totalSuccess` and `testSuites`. -/
def nUnitReportXML.suitesLoop (env : ReportEnv) :
    List TestSuiteResult → Counters → Bool → List NUnitTestSuite →
      Counters × Bool × List NUnitTestSuite
  | [], n, totalSuccess, testSuites => (n, totalSuccess, testSuites)
  | testSuiteResult :: rest, n, totalSuccess, testSuites =>
    let totalSuccess := totalSuccess && testSuiteResult.Passed
    let step := nUnitReportXML.suiteStep env testSuiteResult n
    nUnitReportXML.suitesLoop env rest step.1 totalSuccess (testSuites ++ [step.2])

/-- The document `nunitResult` that `WriteTestOutput` builds from the suite
results and hands to the XML encoder. -/
def nUnitReportXML.nunitResult (env : ReportEnv) (testSuiteResults : List TestSuiteResult) :
    NUnitTestResults :=
  let out := nUnitReportXML.suitesLoop env testSuiteResults {} true []
  { Environment :=
      { NUnitVersion := NUnitVersion
        CLRVersion := CLRVersion
        OSVersion := OSVersion
        Platform := env.platform
        Cwd := env.cwd
        MachineName := env.hostName
        User := env.userName
        UserDomain := env.domainName }
    CultureInfo :=
      { CurrentCulture := env.currentCulture
        CurrentUICulture := env.currentUICulture }
    TestSuite := out.2.2
    Name := "Helm-Unittest"
    Total := out.1.totalTests
    Errors := out.1.totalErrors
    Failures := out.1.totalFailures
    NotRun := 0
    Inconclusive := 0
    Ignored := 0
    Skipped := 0
    Invalid := 0
    Date := env.date
    Time := env.time }

/-! ## assertion_result.go -/

/-- Go `%d` of an `int`: the decimal digits, with a leading minus sign for a
negative number. -/
def fmtInt (n : Int) : String := toString n

/-- The title `AssertionResult.print` and `AssertionResult.stringify`
generate when no custom title is set: `fmt.Sprintf` with the verbs filled
in, from `- asserts[` to `fail`. -/
def AssertionResult.generatedTitle (ar : AssertionResult) : String :=
  let notAnnotation : String := if ar.Not then " NOT" else ""
  "- asserts[" ++ fmtInt ar.Index ++ "]" ++ notAnnotation ++ " `" ++ ar.AssertType ++ "` fail"

/-- The loop `for _, infoLine := range ar.FailInfo` of `stringify`. -/
def AssertionResult.stringify.loop : List String → String → String
  | [], content => content
  | infoLine :: rest, content =>
    AssertionResult.stringify.loop rest (content ++ ("\t\t\t " ++ infoLine ++ " \n"))

/-- Translation of `AssertionResult.stringify`. -/
def AssertionResult.stringify (ar : AssertionResult) : String :=
  let content := ""
  let content :=
    if ar.CustomInfo ≠ "" then content ++ ("\t\t " ++ ar.CustomInfo ++ " \n")
    else content ++ ("\t\t " ++ ar.generatedTitle ++ " \n")
  AssertionResult.stringify.loop ar.FailInfo content

/-- The loop `for _, infoLine := range ar.FailInfo` of `print`, on the calls
made so far. -/
def AssertionResult.print.loop : List String → List (String × Int) → List (String × Int)
  | [], calls => calls
  | infoLine :: rest, calls => AssertionResult.print.loop rest (calls ++ [(infoLine, 3)])

/-- Translation of `AssertionResult.print`. The `Printer` type is declared
outside the given sources: the printer is seen through the calls of
`println` it receives (text and indentation, in order) and its colouring
`danger` is a parameter. The argument `verbosity` is not read. -/
def AssertionResult.print (ar : AssertionResult) (danger : String → String)
    (calls : List (String × Int)) : List (String × Int) :=
  if ar.Passed then calls
  else
    let title : String :=
      if ar.CustomInfo ≠ "" then ar.CustomInfo else ar.generatedTitle
    let calls := calls ++ [(danger (title ++ "\n"), 2)]
    let calls := AssertionResult.print.loop ar.FailInfo calls
    calls ++ [("", 0)]

/-! ## nunit_report_xml.go: the user lookup and the output sink -/

/-- A run-time panic of the Go code. -/
inductive Panic where
  | nilPointerDereference
  | indexOutOfRange (index length : Nat)
  deriving DecidableEq, Repr

/-- The record `user.Current()` returns (`os/user.User`), by the field the
code reads. -/
structure OSUser where
  Username : String
  deriving DecidableEq, Repr

/-- Translation of `formatUserAndDomain`. The argument is the pointer that
`user.Current()` returned, the error being dropped by the code: `none` is
the nil pointer of a failed lookup, and reading `userSettings.Username`
through it panics. The backslash on which the name is split is
`Char.ofNat 92`. -/
def nUnitReportXML.formatUserAndDomain (userSettings : Option OSUser) :
    Except Panic (String × String) :=
  match userSettings with
  | none => .error Panic.nilPointerDereference
  | some settings =>
    let userDomainName := stringsSplit settings.Username (Char.ofNat 92)
    if userDomainName.length = 2 then
      match userDomainName with
      | [domainName, userName] => .ok (domainName, userName)
      | _ => .error (Panic.indexOutOfRange 1 userDomainName.length)
    else
      match userDomainName with
      | userName :: _ => .ok ("", userName)
      | [] => .error (Panic.indexOutOfRange 0 0)

/-- Go `xml.Header`. -/
def xmlHeader : String :=
  "<?xml version=" ++ String.singleton (Char.ofNat 34) ++ "1.0" ++ String.singleton (Char.ofNat 34)
    ++ " encoding=" ++ String.singleton (Char.ofNat 34) ++ "UTF-8"
    ++ String.singleton (Char.ofNat 34) ++ "?>" ++ "\n"

/-- The `bufio.Writer` that `WriteTestOutput` wraps around the sink `w`, as
the four methods the code calls. The state `σ` holds the buffer and the
sink; each method gives the state afterwards and the error it returns. -/
structure BufferedWriter (σ : Type) where
  WriteString : σ → String → σ × Option String
  Write : σ → String → σ × Option String
  WriteByte : σ → Char → σ × Option String
  Flush : σ → σ × Option String

/-- Translation of `WriteTestOutput`. What the function reads from its
surroundings is passed in: `env` holds the clock, the process environment and
the renderings (its `domainName` and `userName` are replaced by what
`formatUserAndDomain` returns), `currentUser` is the pointer returned by
`user.Current()`, `marshal` is `xml.MarshalIndent` and `writer` the buffered
writer over the sink. The outcome is a panic, or the returned error together
with the state of the writer. -/
def nUnitReportXML.WriteTestOutput {σ : Type} (env : ReportEnv) (currentUser : Option OSUser)
    (marshal : NUnitTestResults → Except String String) (writer : BufferedWriter σ)
    (testSuiteResults : List TestSuiteResult) (noXMLHeader : Bool) (w : σ) :
    Except Panic (Option String × σ) :=
  match nUnitReportXML.formatUserAndDomain currentUser with
  | .error panic => .error panic
  | .ok (domainName, userName) =>
    let env := { env with domainName := domainName, userName := userName }
    let nunitResult := nUnitReportXML.nunitResult env testSuiteResults
    match marshal nunitResult with
    | .error err => .ok (some err, w)
    | .ok bytes =>
      let w := if !noXMLHeader then (writer.WriteString w xmlHeader).1 else w
      let w := (writer.Write w bytes).1
      let w := (writer.WriteByte w '\n').1
      let w := (writer.Flush w).1
      .ok (none, w)

/-! ## Reference descriptions used in the statements -/

/-- Whether the name of a template, without the prefix `templates/`, is the
allowed name `fileName`. -/
def matchesName (fileName : String) (templateName : String) : Bool :=
  stringsTrimPrefix templateName "templates/" = fileName

/-- Whether a template name has the extension `.tpl`. -/
def isTpl (templateName : String) : Bool :=
  pathExt templateName = ".tpl"

/-- A route names the root package when it holds no separator. -/
def isRootRoute (route : String) : Prop :=
  Separator ∉ route.data

instance (route : String) : Decidable (isRootRoute route) := by
  unfold isRootRoute; infer_instance

/-- The scoped template list as the specification words it, for a v3
package: per allowed name the first matching template, then every `.tpl`
template in package order. -/
def scopedV3 (allowed : List String) (templates : List V3File) : List V3File :=
  allowed.filterMap (fun fileName => templates.find? (fun t => matchesName fileName t.Name))
    ++ templates.filter (fun t => isTpl t.Name)

/-- The scoped template list as the specification words it, for a v2
package. -/
def scopedV2 (allowed : List String) (templates : List V2Template) : List V2Template :=
  allowed.filterMap (fun fileName => templates.find? (fun t => matchesName fileName t.Name))
    ++ templates.filter (fun t => isTpl t.Name)

/-! ## Concrete inputs -/

/-- A v3 package with two manifests and one helper template. -/
def exampleV3 : V3Chart :=
  { Metadata := "demo"
    Templates :=
      [{ Name := "templates/x.yaml" }, { Name := "templates/y.yaml" },
       { Name := "templates/_helpers.tpl" }] }

/-- A v2 package with two manifests and one helper template. -/
def exampleV2 : V2Chart :=
  { Metadata := "demo"
    Templates :=
      [{ Name := "templates/x.yaml" }, { Name := "templates/y.yaml" },
       { Name := "templates/_helpers.tpl" }] }

/-- A suite of the root package that pins `x.yaml`. -/
def suiteX : TestSuite :=
  { Name := "x suite", Templates := ["x.yaml"], definitionFile := "tests/x_test.yaml",
    chartRoute := "demo" }

/-- A suite of the root package that pins a template the package lacks. -/
def suiteMissing : TestSuite :=
  { Name := "missing suite", Templates := ["missing.yaml"],
    definitionFile := "tests/missing_test.yaml", chartRoute := "demo" }

/-- A suite of a sub-package that pins a template the package lacks. -/
def suiteSubMissing : TestSuite :=
  { Name := "sub suite", Templates := ["missing.yaml"],
    definitionFile := "tests/sub_test.yaml", chartRoute := "demo/charts/child" }

/-- A suite of the root package with two jobs and no pinned template. -/
def suiteJobs : TestSuite :=
  { Name := "jobs suite", Tests := [{ Name := "first" }, { Name := "second" }],
    definitionFile := "tests/jobs_test.yaml", chartRoute := "demo" }

/-- A v3 job runner that passes every job but the one named `second`. -/
def runnerV3 : JobRunner V3Chart := fun testJob _ cache seed =>
  ({ seed with DisplayName := testJob.Name, Passed := testJob.Name != "second" },
    { cache with Compared := cache.Compared + 1 })

/-- A v2 job runner that passes every job but the one named `second`. -/
def runnerV2 : JobRunner V2Chart := fun testJob _ cache seed =>
  ({ seed with DisplayName := testJob.Name, Passed := testJob.Name != "second" },
    { cache with Compared := cache.Compared + 1 })

/-! ## Counting rules of the report, as the specification words them -/

/-- A job that failed because of an execution error. -/
def jobErrored (j : TestJobResult) : Bool := !j.Passed && j.ExecError.isSome

/-- A job that failed on assertions only, without an execution error. -/
def jobFailed (j : TestJobResult) : Bool := !j.Passed && j.ExecError.isNone

/-- Number of suite results that carry an execution error. -/
def errorSuiteCount (results : List TestSuiteResult) : Nat :=
  results.countP (fun r => r.ExecError.isSome)

/-- Number of job results that satisfy `p`, over all suite results. -/
def jobCount (p : TestJobResult → Bool) (results : List TestSuiteResult) : Nat :=
  (results.map (fun r => r.TestsResult.countP p)).sum

/-- What one suite result adds to the total of tests. -/
def suiteTests (r : TestSuiteResult) : Nat :=
  if r.ExecError.isSome then 1 else r.TestsResult.length

/-- What one suite result adds to the errors. -/
def suiteErrors (r : TestSuiteResult) : Nat :=
  if r.ExecError.isSome then 1 else r.TestsResult.countP jobErrored

/-- What one suite result adds to the failures. -/
def suiteFailures (r : TestSuiteResult) : Nat :=
  if r.ExecError.isSome then 0 else r.TestsResult.countP jobFailed

/-- The suite element built for one suite result. -/
def nUnitReportXML.suiteElement (env : ReportEnv) (r : TestSuiteResult) : NUnitTestSuite :=
  (nUnitReportXML.suiteStep env r {}).2

/-- A report environment with recognisable renderings. -/
def exampleEnv : ReportEnv :=
  { date := "2020-01-01", time := "12:00:00", userName := "ci", hostName := "build",
    formatDuration := fun _ => "0.000",
    stringify := fun test => "job " ++ test.DisplayName ++ " failed" }

/-- Two suites of two jobs each; the second job of the first suite fails an
assertion. -/
def exampleRun : List TestSuiteResult :=
  [{ DisplayName := "tests/a_test.yaml", Passed := false,
     TestsResult :=
       [{ Index := 0, DisplayName := "a0", Passed := true },
        { Index := 1, DisplayName := "a1", Passed := false,
          AssertsResult := [{ Index := 0, AssertType := "equal", FailInfo := ["differs"] }] }] },
   { DisplayName := "tests/b_test.yaml", Passed := true,
     TestsResult :=
       [{ Index := 0, DisplayName := "b0", Passed := true },
        { Index := 1, DisplayName := "b1", Passed := true }] }]

/-- A suite result with one job that failed on an execution error. -/
def erroredJobRun : TestSuiteResult :=
  { DisplayName := "tests/c_test.yaml", Passed := false,
    TestsResult := [{ Index := 0, DisplayName := "c0", Passed := false, ExecError := some "boom" }] }

/-- A suite result with an execution error that nevertheless lists a job. -/
def erroredSuiteRun : TestSuiteResult :=
  { DisplayName := "tests/d_test.yaml", Passed := false, ExecError := some "no chart",
    TestsResult := [{ Index := 0, DisplayName := "d0", Passed := false }] }

/-! ## Diagnostic text, as the specification words it -/

/-- The title line of a result: the custom title when there is one, and
otherwise the generated text. -/
def titleText (ar : AssertionResult) : String :=
  if ar.CustomInfo ≠ "" then ar.CustomInfo
  else "- asserts[" ++ fmtInt ar.Index ++ "]" ++ (if ar.Not then " NOT" else "")
    ++ " `" ++ ar.AssertType ++ "` fail"

/-- One line per diagnostic detail, each one tab deeper than the title. -/
def infoLines : List String → String
  | [] => ""
  | infoLine :: rest => "\t\t\t " ++ infoLine ++ " \n" ++ infoLines rest

/-- The number of newline characters of a text. -/
def newlineCount (s : String) : Nat := s.data.count '\n'

/-- A passing assertion result. -/
def passedAssertion : AssertionResult :=
  { Index := 0, Passed := true, AssertType := "equal" }

/-- A failing, negated assertion result with two detail lines. -/
def failedAssertion : AssertionResult :=
  { Index := 2, Passed := false, AssertType := "equal", Not := true,
    FailInfo := ["Path: a.b", "Expected: 1"] }

/-- A failing assertion result with a custom title. -/
def titledAssertion : AssertionResult :=
  { Index := 5, Passed := false, AssertType := "isKind", CustomInfo := "kind must be Pod",
    FailInfo := ["Actual: Job"] }

/-! ## Concrete sinks and encoders -/

/-- The state of a simple buffered writer: what is buffered, what the sink
has accepted, and the first error met. -/
structure BufferState where
  buffered : String := ""
  accepted : String := ""
  err : Option String := none
  deriving DecidableEq, Repr

/-- A buffered writer whose buffer never fills: the three write methods
append to the buffer, and `Flush` hands the buffer to the sink, which
accepts it (`sinkError = none`) or rejects it with an error. An error is
kept and returned by every later call. -/
def bufferedOver (sinkError : Option String) : BufferedWriter BufferState :=
  let put : BufferState → String → BufferState × Option String := fun b text =>
    match b.err with
    | some e => (b, some e)
    | none => ({ b with buffered := b.buffered ++ text }, none)
  { WriteString := put
    Write := put
    WriteByte := fun b c => put b (String.singleton c)
    Flush := fun b =>
      match b.err with
      | some e => (b, some e)
      | none =>
        match sinkError with
        | some e => ({ b with err := some e }, some e)
        | none => ({ b with buffered := "", accepted := b.accepted ++ b.buffered }, none) }

/-- An encoder that always succeeds, with a document that shows the
counters. -/
def marshalCounters : NUnitTestResults → Except String String := fun doc =>
  .ok ("<test-results total=" ++ toString doc.Total ++ " errors=" ++ toString doc.Errors
    ++ " failures=" ++ toString doc.Failures ++ "/>")

/-- An encoder that always fails. -/
def marshalFails : NUnitTestResults → Except String String := fun _ =>
  .error "xml: unsupported type"

/-- The user record of a domain account. -/
def domainUser : OSUser := { Username := "CORP" ++ String.singleton (Char.ofNat 92) ++ "ci" }

/-- The last of the pieces of a character list between occurrences of
`sep`. -/
def lastPiece (sep : Char) (cs : List Char) : List Char :=
  ((splitChars sep cs).getLast?).getD []

/-- The final element of a text split on `/`. -/
def lastSegment (s : String) : String :=
  ((stringsSplit s '/').getLast?).getD ""

/-- The job results as the specification words them: one outcome per
declared job, in declaration order, the job at position `idx` being run on a
seed result with `Index = idx` and on the snapshot cache left by the jobs
before it. -/
def jobOutcomes {Chart : Type} (run : JobRunner Chart) (chart : Chart) :
    List TestJob → Nat → SnapshotCache → List TestJobResult
  | [], _, _ => []
  | testJob :: rest, idx, cache =>
    (run testJob chart cache { Index := idx }).1
      :: jobOutcomes run chart rest (idx + 1) (run testJob chart cache { Index := idx }).2

/-! ## Chart scoping on bare template names -/

/-- The allow-list loop of chart scoping, on template names alone. -/
def scopeNames.check (names : List String) :
    List String → List String → Except String (List String)
  | [], picked => .ok picked
  | fileName :: rest, picked =>
    match names.find? (fun n => matchesName fileName n) with
    | some n => scopeNames.check names rest (picked ++ [n])
    | none => .error (templateNotFound fileName)

/-- Chart scoping as one algorithm on template names: what a package with
the templates `names` keeps for a suite on `route` with the allow-list
`allowed`, or the error. -/
def scopeNames (route : String) (allowed names : List String) : Except String (List String) :=
  if allowed = [] ∧ isRootRoute route then .ok names
  else if isRootRoute route then
    match scopeNames.check names allowed [] with
    | .error err => .error err
    | .ok picked => .ok (picked ++ names.filter isTpl)
  else .ok (names.filter isTpl)

/-- The template names of the outcome of scoping a v3 package. -/
def namesV3 (outcome : Except String V3Chart) : Except String (List String) :=
  match outcome with
  | .error err => .error err
  | .ok chart => .ok (chart.Templates.map (fun t => t.Name))

/-- The template names of the outcome of scoping a v2 package. -/
def namesV2 (outcome : Except String V2Chart) : Except String (List String) :=
  match outcome with
  | .error err => .error err
  | .ok chart => .ok (chart.Templates.map (fun t => t.Name))

/-! ## Value scoping, as the specification words it -/

/-- The value map `values` wrapped once per name, the first name outermost:
`nestUnder [r1, ..., rn] M` is `{r1: {r2: ... {rn: M}}}`. -/
def nestUnder : List String → ValueMap → ValueMap
  | [], values => values
  | name :: rest, values => [(Value.str name, Value.map (nestUnder rest values))]

/-- Follow `keys` down a tree of single-entry maps: the map found below the
last key, when every level is a map whose sole key is the next name. -/
def descend : List String → ValueMap → Option ValueMap
  | [], values => some values
  | name :: rest, [(Value.str key, Value.map inner)] =>
    if key = name then descend rest inner else none
  | _ :: _, _ => none

/-! ## Lemmas on the text primitives -/

theorem splitChars_ne_nil (sep : Char) (cs : List Char) : splitChars sep cs ≠ [] := by
  induction cs with
  | nil => simp [splitChars]
  | cons c cs ih =>
    unfold splitChars
    split
    · simp
    · split <;> simp

theorem splitChars_length (sep : Char) (cs : List Char) :
    (splitChars sep cs).length = cs.count sep + 1 := by
  induction cs with
  | nil => simp [splitChars]
  | cons c cs ih =>
    unfold splitChars
    by_cases h : c = sep
    · subst h; simp [ih]
    · have hc : (c == sep) = false := by simpa using h
      rw [if_neg h, List.count_cons, hc]
      cases hs : splitChars sep cs with
      | nil => exact absurd hs (splitChars_ne_nil sep cs)
      | cons piece pieces => rw [hs] at ih; simpa using ih

theorem stringsSplit_length (s : String) (sep : Char) :
    (stringsSplit s sep).length = s.data.count sep + 1 := by
  simp [stringsSplit, splitChars_length]

theorem root_iff_split_le_one (route : String) :
    (stringsSplit route Separator).length ≤ 1 ↔ isRootRoute route := by
  rw [stringsSplit_length, isRootRoute, ← List.count_eq_zero]
  omega

/-! ## Lemmas on chart scoping -/

theorem prepareV3Chart_find_eq (fileName : String) (templates : List V3File) :
    prepareV3Chart.find fileName templates
      = templates.find? (fun t => matchesName fileName t.Name) := by
  induction templates with
  | nil => rfl
  | cons t rest ih =>
    by_cases h : stringsTrimPrefix t.Name "templates/" = fileName
    · simp [prepareV3Chart.find, matchesName, h]
    · rw [prepareV3Chart.find, if_neg h, ih]
      simp [List.find?, matchesName, h]

theorem prepareV3Chart_addTpl_eq (templates acc : List V3File) :
    prepareV3Chart.addTpl templates acc = acc ++ templates.filter (fun t => isTpl t.Name) := by
  induction templates generalizing acc with
  | nil => simp [prepareV3Chart.addTpl]
  | cons t rest ih =>
    by_cases h : pathExt t.Name = ".tpl"
    · simp [prepareV3Chart.addTpl, isTpl, h, ih]
    · simp [prepareV3Chart.addTpl, isTpl, h, ih]

theorem prepareV3Chart_check_ok (templates : List V3File) (allowed : List String)
    (acc : List V3File)
    (h : ∀ fileName ∈ allowed, ∃ t ∈ templates, matchesName fileName t.Name = true) :
    prepareV3Chart.check templates allowed acc
      = .ok (acc ++ allowed.filterMap
          (fun fileName => templates.find? (fun t => matchesName fileName t.Name))) := by
  induction allowed generalizing acc with
  | nil => simp [prepareV3Chart.check]
  | cons fileName rest ih =>
    obtain ⟨t, ht, hm⟩ := h fileName (List.mem_cons_self _ _)
    have hsome : (templates.find? (fun t => matchesName fileName t.Name)).isSome = true := by
      rw [List.find?_isSome]; exact ⟨t, ht, hm⟩
    obtain ⟨u, hu⟩ := Option.isSome_iff_exists.mp hsome
    have hrest := ih (acc ++ [u]) (fun n hn => h n (List.mem_cons_of_mem _ hn))
    simp [prepareV3Chart.check, prepareV3Chart_find_eq, hu, hrest, List.filterMap_cons]

theorem prepareV3Chart_check_error (templates : List V3File) (pre post : List String)
    (fileName : String) (acc : List V3File)
    (hpre : ∀ n ∈ pre, ∃ t ∈ templates, matchesName n t.Name = true)
    (hmiss : ∀ t ∈ templates, matchesName fileName t.Name = false) :
    prepareV3Chart.check templates (pre ++ fileName :: post) acc
      = .error (templateNotFound fileName) := by
  induction pre generalizing acc with
  | nil =>
    have hnone : templates.find? (fun t => matchesName fileName t.Name) = none := by
      rw [List.find?_eq_none]; intro t ht; simp [hmiss t ht]
    simp [prepareV3Chart.check, prepareV3Chart_find_eq, hnone]
  | cons n rest ih =>
    obtain ⟨t, ht, hm⟩ := hpre n (List.mem_cons_self _ _)
    have hsome : (templates.find? (fun t => matchesName n t.Name)).isSome = true := by
      rw [List.find?_isSome]; exact ⟨t, ht, hm⟩
    obtain ⟨u, hu⟩ := Option.isSome_iff_exists.mp hsome
    have hrest := ih (acc ++ [u]) (fun m hm => hpre m (List.mem_cons_of_mem _ hm))
    simp [prepareV3Chart.check, prepareV3Chart_find_eq, hu, hrest]

theorem prepareV2Chart_find_eq (fileName : String) (templates : List V2Template) :
    prepareV2Chart.find fileName templates
      = templates.find? (fun t => matchesName fileName t.Name) := by
  induction templates with
  | nil => rfl
  | cons t rest ih =>
    by_cases h : stringsTrimPrefix t.Name "templates/" = fileName
    · simp [prepareV2Chart.find, matchesName, h]
    · rw [prepareV2Chart.find, if_neg h, ih]
      simp [List.find?, matchesName, h]

theorem prepareV2Chart_addTpl_eq (templates acc : List V2Template) :
    prepareV2Chart.addTpl templates acc = acc ++ templates.filter (fun t => isTpl t.Name) := by
  induction templates generalizing acc with
  | nil => simp [prepareV2Chart.addTpl]
  | cons t rest ih =>
    by_cases h : pathExt t.Name = ".tpl"
    · simp [prepareV2Chart.addTpl, isTpl, h, ih]
    · simp [prepareV2Chart.addTpl, isTpl, h, ih]

theorem prepareV2Chart_check_ok (templates : List V2Template) (allowed : List String)
    (acc : List V2Template)
    (h : ∀ fileName ∈ allowed, ∃ t ∈ templates, matchesName fileName t.Name = true) :
    prepareV2Chart.check templates allowed acc
      = .ok (acc ++ allowed.filterMap
          (fun fileName => templates.find? (fun t => matchesName fileName t.Name))) := by
  induction allowed generalizing acc with
  | nil => simp [prepareV2Chart.check]
  | cons fileName rest ih =>
    obtain ⟨t, ht, hm⟩ := h fileName (List.mem_cons_self _ _)
    have hsome : (templates.find? (fun t => matchesName fileName t.Name)).isSome = true := by
      rw [List.find?_isSome]; exact ⟨t, ht, hm⟩
    obtain ⟨u, hu⟩ := Option.isSome_iff_exists.mp hsome
    have hrest := ih (acc ++ [u]) (fun n hn => h n (List.mem_cons_of_mem _ hn))
    simp [prepareV2Chart.check, prepareV2Chart_find_eq, hu, hrest, List.filterMap_cons]

theorem prepareV2Chart_check_error (templates : List V2Template) (pre post : List String)
    (fileName : String) (acc : List V2Template)
    (hpre : ∀ n ∈ pre, ∃ t ∈ templates, matchesName n t.Name = true)
    (hmiss : ∀ t ∈ templates, matchesName fileName t.Name = false) :
    prepareV2Chart.check templates (pre ++ fileName :: post) acc
      = .error (templateNotFound fileName) := by
  induction pre generalizing acc with
  | nil =>
    have hnone : templates.find? (fun t => matchesName fileName t.Name) = none := by
      rw [List.find?_eq_none]; intro t ht; simp [hmiss t ht]
    simp [prepareV2Chart.check, prepareV2Chart_find_eq, hnone]
  | cons n rest ih =>
    obtain ⟨t, ht, hm⟩ := hpre n (List.mem_cons_self _ _)
    have hsome : (templates.find? (fun t => matchesName n t.Name)).isSome = true := by
      rw [List.find?_isSome]; exact ⟨t, ht, hm⟩
    obtain ⟨u, hu⟩ := Option.isSome_iff_exists.mp hsome
    have hrest := ih (acc ++ [u]) (fun m hm => hpre m (List.mem_cons_of_mem _ hm))
    simp [prepareV2Chart.check, prepareV2Chart_find_eq, hu, hrest]

/-- Either every name of a list satisfies a decidable property, or the list
splits at the first name that does not. -/
theorem all_or_first_failing {α : Type} (p : α → Bool) (l : List α) :
    (∀ a ∈ l, p a = true) ∨
      ∃ pre a post, l = pre ++ a :: post ∧ (∀ b ∈ pre, p b = true) ∧ p a = false := by
  induction l with
  | nil => left; simp
  | cons x xs ih =>
    by_cases hx : p x = true
    · rcases ih with h | ⟨pre, a, post, hl, hpre, ha⟩
      · left; intro a ha
        rcases List.mem_cons.mp ha with rfl | h'
        · exact hx
        · exact h a h'
      · right
        refine ⟨x :: pre, a, post, by simp [hl], ?_, ha⟩
        intro b hb
        rcases List.mem_cons.mp hb with rfl | h'
        · exact hx
        · exact hpre b h'
    · right
      exact ⟨[], x, xs, rfl, by simp, by simpa using hx⟩

/-- What `prepareV3Chart` does for a suite of the root package with a
non-empty allow-list: the outcome of the allow-list loop, then the `.tpl`
templates. -/
theorem prepareV3Chart_root_eq (s : TestSuite) (chart : V3Chart)
    (hroot : isRootRoute s.chartRoute) (hne : s.Templates ≠ []) :
    s.prepareV3Chart chart =
      match prepareV3Chart.check chart.Templates s.Templates [] with
      | .error err => .error err
      | .ok filtered =>
        .ok { chart with Templates := filtered ++ chart.Templates.filter (fun t => isTpl t.Name) } := by
  have hlen : (stringsSplit s.chartRoute Separator).length ≤ 1 :=
    (root_iff_split_le_one _).mpr hroot
  have hne' : s.Templates.length ≠ 0 := by
    intro h; exact hne (List.length_eq_zero.mp h)
  unfold TestSuite.prepareV3Chart
  simp only [hlen, decide_True, hne', false_and, if_false, if_true]
  cases prepareV3Chart.check chart.Templates s.Templates [] with
  | error e => rfl
  | ok filtered => simp [prepareV3Chart_addTpl_eq]

/-- What `prepareV2Chart` does for a suite of the root package with a
non-empty allow-list: the outcome of the allow-list loop, then the `.tpl`
templates. -/
theorem prepareV2Chart_root_eq (s : TestSuite) (chart : V2Chart)
    (hroot : isRootRoute s.chartRoute) (hne : s.Templates ≠ []) :
    s.prepareV2Chart chart =
      match prepareV2Chart.check chart.Templates s.Templates [] with
      | .error err => .error err
      | .ok filtered =>
        .ok { chart with Templates := filtered ++ chart.Templates.filter (fun t => isTpl t.Name) } := by
  have hlen : (stringsSplit s.chartRoute Separator).length ≤ 1 :=
    (root_iff_split_le_one _).mpr hroot
  have hne' : s.Templates.length ≠ 0 := by
    intro h; exact hne (List.length_eq_zero.mp h)
  unfold TestSuite.prepareV2Chart
  simp only [hlen, decide_True, hne', false_and, if_false, if_true]
  cases prepareV2Chart.check chart.Templates s.Templates [] with
  | error e => rfl
  | ok filtered => simp [prepareV2Chart_addTpl_eq]

theorem prepareV3Chart_root_ok (s : TestSuite) (chart : V3Chart)
    (hroot : isRootRoute s.chartRoute) (hne : s.Templates ≠ [])
    (h : ∀ fileName ∈ s.Templates, ∃ t ∈ chart.Templates, matchesName fileName t.Name = true) :
    s.prepareV3Chart chart
      = .ok { chart with Templates := scopedV3 s.Templates chart.Templates } := by
  rw [prepareV3Chart_root_eq s chart hroot hne, prepareV3Chart_check_ok _ _ _ h]
  simp [scopedV3]

theorem prepareV3Chart_root_missing (s : TestSuite) (chart : V3Chart)
    (hroot : isRootRoute s.chartRoute) (pre post : List String) (fileName : String)
    (hsplit : s.Templates = pre ++ fileName :: post)
    (hpre : ∀ n ∈ pre, ∃ t ∈ chart.Templates, matchesName n t.Name = true)
    (hmiss : ∀ t ∈ chart.Templates, matchesName fileName t.Name = false) :
    s.prepareV3Chart chart = .error (templateNotFound fileName) := by
  have hne : s.Templates ≠ [] := by rw [hsplit]; simp
  rw [prepareV3Chart_root_eq s chart hroot hne, hsplit,
    prepareV3Chart_check_error _ _ _ _ _ hpre hmiss]

theorem prepareV3Chart_sub_ok (s : TestSuite) (chart : V3Chart)
    (hsub : ¬ isRootRoute s.chartRoute) :
    s.prepareV3Chart chart
      = .ok { chart with Templates := chart.Templates.filter (fun t => isTpl t.Name) } := by
  have hlen : ¬ (stringsSplit s.chartRoute Separator).length ≤ 1 :=
    fun h => hsub ((root_iff_split_le_one _).mp h)
  unfold TestSuite.prepareV3Chart
  simp [hlen, prepareV3Chart_addTpl_eq]

/-- The allow-list of a suite against a v3 template list: all names match,
or the list splits at the first name that matches nothing. -/
theorem prepareV3Chart_allowed_cases (allowed : List String) (templates : List V3File) :
    (∀ fileName ∈ allowed, ∃ t ∈ templates, matchesName fileName t.Name = true) ∨
      ∃ pre fileName post, allowed = pre ++ fileName :: post ∧
        (∀ n ∈ pre, ∃ t ∈ templates, matchesName n t.Name = true) ∧
        (∀ t ∈ templates, matchesName fileName t.Name = false) := by
  rcases all_or_first_failing (fun n => templates.any (fun t => matchesName n t.Name)) allowed
    with h | ⟨pre, a, post, hl, hpre, ha⟩
  · left; intro n hn; simpa using h n hn
  · right
    refine ⟨pre, a, post, hl, ?_, ?_⟩
    · intro n hn; simpa using hpre n hn
    · intro t ht
      have := ha
      simp only [List.any_eq_false] at this
      simpa using this t ht

theorem prepareV2Chart_root_ok (s : TestSuite) (chart : V2Chart)
    (hroot : isRootRoute s.chartRoute) (hne : s.Templates ≠ [])
    (h : ∀ fileName ∈ s.Templates, ∃ t ∈ chart.Templates, matchesName fileName t.Name = true) :
    s.prepareV2Chart chart
      = .ok { chart with Templates := scopedV2 s.Templates chart.Templates } := by
  rw [prepareV2Chart_root_eq s chart hroot hne, prepareV2Chart_check_ok _ _ _ h]
  simp [scopedV2]

theorem prepareV2Chart_root_missing (s : TestSuite) (chart : V2Chart)
    (hroot : isRootRoute s.chartRoute) (pre post : List String) (fileName : String)
    (hsplit : s.Templates = pre ++ fileName :: post)
    (hpre : ∀ n ∈ pre, ∃ t ∈ chart.Templates, matchesName n t.Name = true)
    (hmiss : ∀ t ∈ chart.Templates, matchesName fileName t.Name = false) :
    s.prepareV2Chart chart = .error (templateNotFound fileName) := by
  have hne : s.Templates ≠ [] := by rw [hsplit]; simp
  rw [prepareV2Chart_root_eq s chart hroot hne, hsplit,
    prepareV2Chart_check_error _ _ _ _ _ hpre hmiss]

theorem prepareV2Chart_sub_ok (s : TestSuite) (chart : V2Chart)
    (hsub : ¬ isRootRoute s.chartRoute) :
    s.prepareV2Chart chart
      = .ok { chart with Templates := chart.Templates.filter (fun t => isTpl t.Name) } := by
  have hlen : ¬ (stringsSplit s.chartRoute Separator).length ≤ 1 :=
    fun h => hsub ((root_iff_split_le_one _).mp h)
  unfold TestSuite.prepareV2Chart
  simp [hlen, prepareV2Chart_addTpl_eq]

/-- The allow-list of a suite against a v2 template list: all names match,
or the list splits at the first name that matches nothing. -/
theorem prepareV2Chart_allowed_cases (allowed : List String) (templates : List V2Template) :
    (∀ fileName ∈ allowed, ∃ t ∈ templates, matchesName fileName t.Name = true) ∨
      ∃ pre fileName post, allowed = pre ++ fileName :: post ∧
        (∀ n ∈ pre, ∃ t ∈ templates, matchesName n t.Name = true) ∧
        (∀ t ∈ templates, matchesName fileName t.Name = false) := by
  rcases all_or_first_failing (fun n => templates.any (fun t => matchesName n t.Name)) allowed
    with h | ⟨pre, a, post, hl, hpre, ha⟩
  · left; intro n hn; simpa using h n hn
  · right
    refine ⟨pre, a, post, hl, ?_, ?_⟩
    · intro n hn; simpa using hpre n hn
    · intro t ht
      have := ha
      simp only [List.any_eq_false] at this
      simpa using this t ht

theorem filterMap_length_of_all_some {α β : Type} (f : α → Option β) (l : List α)
    (h : ∀ a ∈ l, (f a).isSome = true) : (l.filterMap f).length = l.length := by
  induction l with
  | nil => rfl
  | cons a as ih =>
    obtain ⟨b, hb⟩ := Option.isSome_iff_exists.mp (h a (List.mem_cons_self _ _))
    simp [List.filterMap_cons, hb, ih (fun x hx => h x (List.mem_cons_of_mem _ hx))]

/-! ## Chart scoping: claims -/

/-- C1. For a suite of the root package (route without separator) with a
non-empty allow-list all of whose names match some template, both
`prepareV3Chart` and `prepareV2Chart` succeed, and the template list of the
returned package is, per allowed name in allow-list order, the first matching
template, followed by the `.tpl` templates of the package in package order;
its length is the length of the allow-list plus the number of `.tpl`
templates. On `[templates/x.yaml, templates/y.yaml, templates/_helpers.tpl]`
with allow-list `[x.yaml]` the list is
`[templates/x.yaml, templates/_helpers.tpl]`. -/
theorem prepareChart_allowed_then_tpl (s : TestSuite)
    (hroot : isRootRoute s.chartRoute) (hne : s.Templates ≠ []) :
    (∀ chart : V3Chart,
      (∀ fileName ∈ s.Templates, ∃ t ∈ chart.Templates,
        stringsTrimPrefix t.Name "templates/" = fileName) →
      s.prepareV3Chart chart
          = .ok { chart with Templates := scopedV3 s.Templates chart.Templates } ∧
        (scopedV3 s.Templates chart.Templates).length
          = s.Templates.length
            + (chart.Templates.filter (fun t => pathExt t.Name = ".tpl")).length) ∧
    (∀ chart : V2Chart,
      (∀ fileName ∈ s.Templates, ∃ t ∈ chart.Templates,
        stringsTrimPrefix t.Name "templates/" = fileName) →
      s.prepareV2Chart chart
          = .ok { chart with Templates := scopedV2 s.Templates chart.Templates } ∧
        (scopedV2 s.Templates chart.Templates).length
          = s.Templates.length
            + (chart.Templates.filter (fun t => pathExt t.Name = ".tpl")).length) ∧
    suiteX.prepareV3Chart exampleV3
      = .ok { exampleV3 with
              Templates := [{ Name := "templates/x.yaml" }, { Name := "templates/_helpers.tpl" }] } ∧
    suiteX.prepareV2Chart exampleV2
      = .ok { exampleV2 with
              Templates := [{ Name := "templates/x.yaml" }, { Name := "templates/_helpers.tpl" }] } := by
  refine ⟨?_, ?_, rfl, rfl⟩
  · intro chart hall
    have hall' : ∀ fileName ∈ s.Templates, ∃ t ∈ chart.Templates,
        matchesName fileName t.Name = true := by
      intro n hn
      obtain ⟨t, ht, hm⟩ := hall n hn
      exact ⟨t, ht, by simp [matchesName, hm]⟩
    refine ⟨prepareV3Chart_root_ok s chart hroot hne hall', ?_⟩
    rw [scopedV3, List.length_append, filterMap_length_of_all_some]
    · rfl
    · intro n hn
      rw [List.find?_isSome]
      exact hall' n hn
  · intro chart hall
    have hall' : ∀ fileName ∈ s.Templates, ∃ t ∈ chart.Templates,
        matchesName fileName t.Name = true := by
      intro n hn
      obtain ⟨t, ht, hm⟩ := hall n hn
      exact ⟨t, ht, by simp [matchesName, hm]⟩
    refine ⟨prepareV2Chart_root_ok s chart hroot hne hall', ?_⟩
    rw [scopedV2, List.length_append, filterMap_length_of_all_some]
    · rfl
    · intro n hn
      rw [List.find?_isSome]
      exact hall' n hn

theorem prepareChart_allowed_then_tpl_witness :
    isRootRoute suiteX.chartRoute ∧ suiteX.Templates ≠ [] ∧
      (∀ fileName ∈ suiteX.Templates, ∃ t ∈ exampleV3.Templates,
        stringsTrimPrefix t.Name "templates/" = fileName) ∧
      suiteX.prepareV3Chart exampleV3
        = .ok { exampleV3 with Templates := scopedV3 suiteX.Templates exampleV3.Templates } ∧
      (scopedV3 suiteX.Templates exampleV3.Templates).length = 1 + 1 :=
  ⟨by decide, by decide, by decide,
    ((prepareChart_allowed_then_tpl suiteX (by decide) (by decide)).1 exampleV3 (by decide)).1,
    ((prepareChart_allowed_then_tpl suiteX (by decide) (by decide)).1 exampleV3 (by decide)).2⟩

/-- C2. For a suite of the root package with a non-empty allow-list,
`prepareV3Chart` and `prepareV2Chart` return an error exactly when some
allowed name matches no template of the package, and the error text is then
"template file `templates/<name>` not found in chart" for the first unmatched
name in allow-list order; with allow-list `[missing.yaml]` the error names
`templates/missing.yaml`. -/
theorem prepareChart_error_iff_unmatched (s : TestSuite)
    (hroot : isRootRoute s.chartRoute) (hne : s.Templates ≠ []) :
    (∀ chart : V3Chart,
      ((∃ err, s.prepareV3Chart chart = .error err) ↔
        ∃ fileName ∈ s.Templates, ∀ t ∈ chart.Templates,
          stringsTrimPrefix t.Name "templates/" ≠ fileName) ∧
      (∀ err, s.prepareV3Chart chart = .error err →
        ∃ pre fileName post, s.Templates = pre ++ fileName :: post ∧
          (∀ n ∈ pre, ∃ t ∈ chart.Templates, stringsTrimPrefix t.Name "templates/" = n) ∧
          (∀ t ∈ chart.Templates, stringsTrimPrefix t.Name "templates/" ≠ fileName) ∧
          err = "template file `templates/" ++ fileName ++ "` not found in chart")) ∧
    (∀ chart : V2Chart,
      ((∃ err, s.prepareV2Chart chart = .error err) ↔
        ∃ fileName ∈ s.Templates, ∀ t ∈ chart.Templates,
          stringsTrimPrefix t.Name "templates/" ≠ fileName) ∧
      (∀ err, s.prepareV2Chart chart = .error err →
        ∃ pre fileName post, s.Templates = pre ++ fileName :: post ∧
          (∀ n ∈ pre, ∃ t ∈ chart.Templates, stringsTrimPrefix t.Name "templates/" = n) ∧
          (∀ t ∈ chart.Templates, stringsTrimPrefix t.Name "templates/" ≠ fileName) ∧
          err = "template file `templates/" ++ fileName ++ "` not found in chart")) ∧
    suiteMissing.prepareV3Chart exampleV3
      = .error "template file `templates/missing.yaml` not found in chart" ∧
    suiteMissing.prepareV2Chart exampleV2
      = .error "template file `templates/missing.yaml` not found in chart" := by
  refine ⟨?_, ?_, rfl, rfl⟩
  · intro chart
    rcases prepareV3Chart_allowed_cases s.Templates chart.Templates
      with hall | ⟨pre, fileName, post, hsplit, hpre, hmiss⟩
    · have hok := prepareV3Chart_root_ok s chart hroot hne hall
      refine ⟨⟨?_, ?_⟩, ?_⟩
      · rintro ⟨err, herr⟩; rw [hok] at herr; cases herr
      · rintro ⟨n, hn, hno⟩
        obtain ⟨t, ht, hm⟩ := hall n hn
        exact absurd (by simpa [matchesName] using hm) (hno t ht)
      · intro err herr; rw [hok] at herr; cases herr
    · have herr := prepareV3Chart_root_missing s chart hroot pre post fileName hsplit hpre hmiss
      have hmiss' : ∀ t ∈ chart.Templates, stringsTrimPrefix t.Name "templates/" ≠ fileName :=
        fun t ht => by simpa [matchesName] using hmiss t ht
      refine ⟨⟨fun _ => ⟨fileName, by simp [hsplit], hmiss'⟩, fun _ => ⟨_, herr⟩⟩, ?_⟩
      intro err h
      rw [herr] at h
      refine ⟨pre, fileName, post, hsplit, ?_, hmiss', ?_⟩
      · intro n hn
        obtain ⟨t, ht, hm⟩ := hpre n hn
        exact ⟨t, ht, by simpa [matchesName] using hm⟩
      · injection h with h; exact h.symm
  · intro chart
    rcases prepareV2Chart_allowed_cases s.Templates chart.Templates
      with hall | ⟨pre, fileName, post, hsplit, hpre, hmiss⟩
    · have hok := prepareV2Chart_root_ok s chart hroot hne hall
      refine ⟨⟨?_, ?_⟩, ?_⟩
      · rintro ⟨err, herr⟩; rw [hok] at herr; cases herr
      · rintro ⟨n, hn, hno⟩
        obtain ⟨t, ht, hm⟩ := hall n hn
        exact absurd (by simpa [matchesName] using hm) (hno t ht)
      · intro err herr; rw [hok] at herr; cases herr
    · have herr := prepareV2Chart_root_missing s chart hroot pre post fileName hsplit hpre hmiss
      have hmiss' : ∀ t ∈ chart.Templates, stringsTrimPrefix t.Name "templates/" ≠ fileName :=
        fun t ht => by simpa [matchesName] using hmiss t ht
      refine ⟨⟨fun _ => ⟨fileName, by simp [hsplit], hmiss'⟩, fun _ => ⟨_, herr⟩⟩, ?_⟩
      intro err h
      rw [herr] at h
      refine ⟨pre, fileName, post, hsplit, ?_, hmiss', ?_⟩
      · intro n hn
        obtain ⟨t, ht, hm⟩ := hpre n hn
        exact ⟨t, ht, by simpa [matchesName] using hm⟩
      · injection h with h; exact h.symm

theorem prepareChart_error_iff_unmatched_witness :
    isRootRoute suiteMissing.chartRoute ∧ suiteMissing.Templates ≠ [] ∧
      ((∃ err, suiteMissing.prepareV3Chart exampleV3 = .error err) ↔
        ∃ fileName ∈ suiteMissing.Templates, ∀ t ∈ exampleV3.Templates,
          stringsTrimPrefix t.Name "templates/" ≠ fileName) :=
  ⟨by decide, by decide,
    ((prepareChart_error_iff_unmatched suiteMissing (by decide) (by decide)).1 exampleV3).1⟩

/-- C3, as stated, fails: a suite on a sub-package route whose allow-list
names a template the package lacks is scoped without error. -/
theorem prepareChart_sub_route_unmatched_succeeds :
    ¬ isRootRoute suiteSubMissing.chartRoute ∧
      (∃ fileName ∈ suiteSubMissing.Templates, ∀ t ∈ exampleV3.Templates,
        stringsTrimPrefix t.Name "templates/" ≠ fileName) ∧
      suiteSubMissing.prepareV3Chart exampleV3
        = .ok { exampleV3 with Templates := [{ Name := "templates/_helpers.tpl" }] } ∧
      suiteSubMissing.prepareV2Chart exampleV2
        = .ok { exampleV2 with Templates := [{ Name := "templates/_helpers.tpl" }] } :=
  ⟨by decide, by decide, rfl, rfl⟩

/-- C3, amended. For a suite of the root package, an allow-list name that
matches no template of the package makes `prepareV3Chart` and
`prepareV2Chart` fail with an error that names a missing template of the
allow-list. For a suite on a sub-package route the allow-list is not
checked: scoping succeeds and returns the package with exactly its `.tpl`
templates. -/
theorem prepareChart_unmatched_by_route (s : TestSuite) :
    (isRootRoute s.chartRoute →
      (∀ chart : V3Chart,
        (∃ fileName ∈ s.Templates, ∀ t ∈ chart.Templates,
          stringsTrimPrefix t.Name "templates/" ≠ fileName) →
        ∃ fileName ∈ s.Templates,
          (∀ t ∈ chart.Templates, stringsTrimPrefix t.Name "templates/" ≠ fileName) ∧
          s.prepareV3Chart chart
            = .error ("template file `templates/" ++ fileName ++ "` not found in chart")) ∧
      (∀ chart : V2Chart,
        (∃ fileName ∈ s.Templates, ∀ t ∈ chart.Templates,
          stringsTrimPrefix t.Name "templates/" ≠ fileName) →
        ∃ fileName ∈ s.Templates,
          (∀ t ∈ chart.Templates, stringsTrimPrefix t.Name "templates/" ≠ fileName) ∧
          s.prepareV2Chart chart
            = .error ("template file `templates/" ++ fileName ++ "` not found in chart"))) ∧
    (¬ isRootRoute s.chartRoute →
      (∀ chart : V3Chart,
        s.prepareV3Chart chart
          = .ok { chart with
                  Templates := chart.Templates.filter (fun t => pathExt t.Name = ".tpl") }) ∧
      (∀ chart : V2Chart,
        s.prepareV2Chart chart
          = .ok { chart with
                  Templates := chart.Templates.filter (fun t => pathExt t.Name = ".tpl") })) := by
  refine ⟨fun hroot => ⟨?_, ?_⟩, fun hsub => ⟨?_, ?_⟩⟩
  · rintro chart ⟨n, hn, hno⟩
    rcases prepareV3Chart_allowed_cases s.Templates chart.Templates
      with hall | ⟨pre, fileName, post, hsplit, hpre, hmiss⟩
    · obtain ⟨t, ht, hm⟩ := hall n hn
      exact absurd (by simpa [matchesName] using hm) (hno t ht)
    · exact ⟨fileName, by simp [hsplit], fun t ht => by simpa [matchesName] using hmiss t ht,
        prepareV3Chart_root_missing s chart hroot pre post fileName hsplit hpre hmiss⟩
  · rintro chart ⟨n, hn, hno⟩
    rcases prepareV2Chart_allowed_cases s.Templates chart.Templates
      with hall | ⟨pre, fileName, post, hsplit, hpre, hmiss⟩
    · obtain ⟨t, ht, hm⟩ := hall n hn
      exact absurd (by simpa [matchesName] using hm) (hno t ht)
    · exact ⟨fileName, by simp [hsplit], fun t ht => by simpa [matchesName] using hmiss t ht,
        prepareV2Chart_root_missing s chart hroot pre post fileName hsplit hpre hmiss⟩
  · intro chart; exact prepareV3Chart_sub_ok s chart hsub
  · intro chart; exact prepareV2Chart_sub_ok s chart hsub

theorem prepareChart_unmatched_by_route_witness :
    (isRootRoute suiteMissing.chartRoute ∧
      ∃ fileName ∈ suiteMissing.Templates,
        (∀ t ∈ exampleV3.Templates, stringsTrimPrefix t.Name "templates/" ≠ fileName) ∧
        suiteMissing.prepareV3Chart exampleV3
          = .error ("template file `templates/" ++ fileName ++ "` not found in chart")) ∧
    (¬ isRootRoute suiteSubMissing.chartRoute ∧
      suiteSubMissing.prepareV3Chart exampleV3
        = .ok { exampleV3 with
                Templates := exampleV3.Templates.filter (fun t => pathExt t.Name = ".tpl") }) :=
  ⟨⟨by decide,
      ((prepareChart_unmatched_by_route suiteMissing).1 (by decide)).1 exampleV3 (by decide)⟩,
    ⟨by decide, ((prepareChart_unmatched_by_route suiteSubMissing).2 (by decide)).1 exampleV3⟩⟩

/-! ## Running a suite -/

theorem polish_prepareV3Chart (s : TestSuite) (chart : V3Chart) :
    s.polishTestJobsPathInfo.prepareV3Chart chart = s.prepareV3Chart chart := rfl

theorem polish_prepareV2Chart (s : TestSuite) (chart : V2Chart) :
    s.polishTestJobsPathInfo.prepareV2Chart chart = s.prepareV2Chart chart := rfl

/-- The job loop returns the results it was given followed by one result per
job, and its flag is the incoming flag conjoined with the pass flags of the
new results. -/
theorem runV3TestJobs_loop_spec (run : JobRunner V3Chart) (chart : V3Chart)
    (tests : List TestJob) (idx : Nat) (suitePass : Bool) (jobResults : List TestJobResult)
    (cache : SnapshotCache) :
    ∃ added : List TestJobResult,
      (runV3TestJobs.loop run chart tests idx suitePass jobResults cache).1.2
          = jobResults ++ added ∧
        (runV3TestJobs.loop run chart tests idx suitePass jobResults cache).1.1
          = (suitePass && added.all (fun j => j.Passed)) ∧
        added.length = tests.length := by
  induction tests generalizing idx suitePass jobResults cache with
  | nil => exact ⟨[], by simp [runV3TestJobs.loop]⟩
  | cons testJob rest ih =>
    obtain ⟨added, h1, h2, h3⟩ := ih (idx + 1)
      (if !(run testJob chart cache { Index := idx }).1.Passed then false else suitePass)
      (jobResults ++ [(run testJob chart cache { Index := idx }).1])
      (run testJob chart cache { Index := idx }).2
    refine ⟨(run testJob chart cache { Index := idx }).1 :: added, ?_, ?_, ?_⟩
    · simp only [runV3TestJobs.loop]; rw [h1]; simp
    · simp only [runV3TestJobs.loop]; rw [h2]
      simp only [List.all_cons]
      cases hb : (run testJob chart cache { Index := idx }).1.Passed <;> simp
    · simp [h3]

theorem runV2TestJobs_loop_spec (run : JobRunner V2Chart) (chart : V2Chart)
    (tests : List TestJob) (idx : Nat) (suitePass : Bool) (jobResults : List TestJobResult)
    (cache : SnapshotCache) :
    ∃ added : List TestJobResult,
      (runV2TestJobs.loop run chart tests idx suitePass jobResults cache).1.2
          = jobResults ++ added ∧
        (runV2TestJobs.loop run chart tests idx suitePass jobResults cache).1.1
          = (suitePass && added.all (fun j => j.Passed)) ∧
        added.length = tests.length := by
  induction tests generalizing idx suitePass jobResults cache with
  | nil => exact ⟨[], by simp [runV2TestJobs.loop]⟩
  | cons testJob rest ih =>
    obtain ⟨added, h1, h2, h3⟩ := ih (idx + 1)
      (if !(run testJob chart cache { Index := idx }).1.Passed then false else suitePass)
      (jobResults ++ [(run testJob chart cache { Index := idx }).1])
      (run testJob chart cache { Index := idx }).2
    refine ⟨(run testJob chart cache { Index := idx }).1 :: added, ?_, ?_, ?_⟩
    · simp only [runV2TestJobs.loop]; rw [h1]; simp
    · simp only [runV2TestJobs.loop]; rw [h2]
      simp only [List.all_cons]
      cases hb : (run testJob chart cache { Index := idx }).1.Passed <;> simp
    · simp [h3]

/-- On a scoping error `RunV3` returns the named result with the error and
leaves the cache alone. -/
theorem RunV3_of_error (s : TestSuite) (run : JobRunner V3Chart) (chart : V3Chart)
    (cache : SnapshotCache) (result : TestSuiteResult) (err : String)
    (h : s.prepareV3Chart chart = .error err) :
    s.RunV3 run chart cache result
      = ({ result with
           DisplayName := s.Name, FilePath := s.definitionFile, ExecError := some err },
         cache) := by
  unfold TestSuite.RunV3
  simp only [polish_prepareV3Chart, h]
  rfl

theorem RunV2_of_error (s : TestSuite) (run : JobRunner V2Chart) (chart : V2Chart)
    (cache : SnapshotCache) (result : TestSuiteResult) (err : String)
    (h : s.prepareV2Chart chart = .error err) :
    s.RunV2 run chart cache result
      = ({ result with
           DisplayName := s.Name, FilePath := s.definitionFile, ExecError := some err },
         cache) := by
  unfold TestSuite.RunV2
  simp only [polish_prepareV2Chart, h]
  rfl

/-- On a successful scoping `RunV3` keeps the error field of the result it
was given and fills the pass flag and the job results from the job loop. -/
theorem RunV3_of_ok (s : TestSuite) (run : JobRunner V3Chart) (chart prepared : V3Chart)
    (cache : SnapshotCache) (result : TestSuiteResult)
    (h : s.prepareV3Chart chart = .ok prepared) :
    (s.RunV3 run chart cache result).1.ExecError = result.ExecError ∧
      (s.RunV3 run chart cache result).1.Passed
        = (s.polishTestJobsPathInfo.runV3TestJobs run prepared cache).1.1 ∧
      (s.RunV3 run chart cache result).1.TestsResult
        = (s.polishTestJobsPathInfo.runV3TestJobs run prepared cache).1.2 := by
  unfold TestSuite.RunV3
  simp only [polish_prepareV3Chart, h]
  exact ⟨rfl, rfl, rfl⟩

theorem RunV2_of_ok (s : TestSuite) (run : JobRunner V2Chart) (chart prepared : V2Chart)
    (cache : SnapshotCache) (result : TestSuiteResult)
    (h : s.prepareV2Chart chart = .ok prepared) :
    (s.RunV2 run chart cache result).1.ExecError = result.ExecError ∧
      (s.RunV2 run chart cache result).1.Passed
        = (s.polishTestJobsPathInfo.runV2TestJobs run prepared cache).1.1 ∧
      (s.RunV2 run chart cache result).1.TestsResult
        = (s.polishTestJobsPathInfo.runV2TestJobs run prepared cache).1.2 := by
  unfold TestSuite.RunV2
  simp only [polish_prepareV2Chart, h]
  exact ⟨rfl, rfl, rfl⟩

theorem RunV3_passed_eq (s : TestSuite) (run : JobRunner V3Chart) (chart : V3Chart)
    (cache : SnapshotCache) :
    (s.RunV3 run chart cache {}).1.Passed
      = ((s.RunV3 run chart cache {}).1.ExecError.isNone &&
          (s.RunV3 run chart cache {}).1.TestsResult.all (fun j => j.Passed)) := by
  cases h : s.prepareV3Chart chart with
  | error err => rw [RunV3_of_error s run chart cache {} err h]; rfl
  | ok prepared =>
    obtain ⟨h1, h2, h3⟩ := RunV3_of_ok s run chart prepared cache {} h
    obtain ⟨added, e1, e2, _⟩ := runV3TestJobs_loop_spec run prepared
      s.polishTestJobsPathInfo.Tests 0 true [] cache
    rw [h1, h2, h3]
    simp only [TestSuite.runV3TestJobs]
    rw [e1, e2]
    simp

theorem RunV2_passed_eq (s : TestSuite) (run : JobRunner V2Chart) (chart : V2Chart)
    (cache : SnapshotCache) :
    (s.RunV2 run chart cache {}).1.Passed
      = ((s.RunV2 run chart cache {}).1.ExecError.isNone &&
          (s.RunV2 run chart cache {}).1.TestsResult.all (fun j => j.Passed)) := by
  cases h : s.prepareV2Chart chart with
  | error err => rw [RunV2_of_error s run chart cache {} err h]; rfl
  | ok prepared =>
    obtain ⟨h1, h2, h3⟩ := RunV2_of_ok s run chart prepared cache {} h
    obtain ⟨added, e1, e2, _⟩ := runV2TestJobs_loop_spec run prepared
      s.polishTestJobsPathInfo.Tests 0 true [] cache
    rw [h1, h2, h3]
    simp only [TestSuite.runV2TestJobs]
    rw [e1, e2]
    simp

/-- C4. Started from the zero-valued result record, `RunV3` and `RunV2`
return a result whose `Passed` equals "`ExecError` is nil and every job
result of `TestsResult` passed", whatever the suite, package, cache and job
runner. In particular a suite without jobs whose scoping succeeds passes,
and a suite whose scoping fails does not pass. -/
theorem Run_passed_iff_no_error_and_all_jobs_pass (s : TestSuite) (cache : SnapshotCache) :
    (∀ (run : JobRunner V3Chart) (chart : V3Chart),
      (s.RunV3 run chart cache {}).1.Passed
          = ((s.RunV3 run chart cache {}).1.ExecError.isNone &&
              (s.RunV3 run chart cache {}).1.TestsResult.all (fun j => j.Passed)) ∧
        (s.Tests = [] → (∃ prepared, s.prepareV3Chart chart = .ok prepared) →
          (s.RunV3 run chart cache {}).1.Passed = true) ∧
        ((∃ err, s.prepareV3Chart chart = .error err) →
          (s.RunV3 run chart cache {}).1.Passed = false)) ∧
    (∀ (run : JobRunner V2Chart) (chart : V2Chart),
      (s.RunV2 run chart cache {}).1.Passed
          = ((s.RunV2 run chart cache {}).1.ExecError.isNone &&
              (s.RunV2 run chart cache {}).1.TestsResult.all (fun j => j.Passed)) ∧
        (s.Tests = [] → (∃ prepared, s.prepareV2Chart chart = .ok prepared) →
          (s.RunV2 run chart cache {}).1.Passed = true) ∧
        ((∃ err, s.prepareV2Chart chart = .error err) →
          (s.RunV2 run chart cache {}).1.Passed = false)) := by
  refine ⟨fun run chart => ⟨RunV3_passed_eq s run chart cache, ?_, ?_⟩,
    fun run chart => ⟨RunV2_passed_eq s run chart cache, ?_, ?_⟩⟩
  · rintro hnil ⟨prepared, h⟩
    rw [(RunV3_of_ok s run chart prepared cache {} h).2.1]
    simp [TestSuite.runV3TestJobs, TestSuite.polishTestJobsPathInfo, hnil, runV3TestJobs.loop]
  · rintro ⟨err, h⟩
    rw [RunV3_of_error s run chart cache {} err h]
  · rintro hnil ⟨prepared, h⟩
    rw [(RunV2_of_ok s run chart prepared cache {} h).2.1]
    simp [TestSuite.runV2TestJobs, TestSuite.polishTestJobsPathInfo, hnil, runV2TestJobs.loop]
  · rintro ⟨err, h⟩
    rw [RunV2_of_error s run chart cache {} err h]

theorem Run_passed_iff_no_error_and_all_jobs_pass_witness :
    (suiteX.RunV3 runnerV3 exampleV3 {} {}).1.Passed = true ∧
      (suiteMissing.RunV3 runnerV3 exampleV3 {} {}).1.Passed = false ∧
      (suiteJobs.RunV3 runnerV3 exampleV3 {} {}).1.Passed
        = ((suiteJobs.RunV3 runnerV3 exampleV3 {} {}).1.ExecError.isNone &&
            (suiteJobs.RunV3 runnerV3 exampleV3 {} {}).1.TestsResult.all (fun j => j.Passed)) ∧
      (suiteJobs.RunV3 runnerV3 exampleV3 {} {}).1.Passed = false :=
  ⟨((Run_passed_iff_no_error_and_all_jobs_pass suiteX {}).1 runnerV3 exampleV3).2.1 rfl
      ⟨_, rfl⟩,
    ((Run_passed_iff_no_error_and_all_jobs_pass suiteMissing {}).1 runnerV3 exampleV3).2.2
      ⟨_, rfl⟩,
    ((Run_passed_iff_no_error_and_all_jobs_pass suiteJobs {}).1 runnerV3 exampleV3).1,
    by decide⟩

/-- C5. When chart scoping fails, `RunV3` and `RunV2` started from the
zero-valued result record return the record that carries the suite name as
`DisplayName`, the definition file as `FilePath`, the scoping error as
`ExecError`, an empty job-result list and `Passed = false`; the snapshot
cache comes back unchanged and the outcome does not depend on the job
runner, which is never called. -/
theorem Run_scoping_error_runs_no_job (s : TestSuite) (cache : SnapshotCache) :
    (∀ (chart : V3Chart) (err : String), s.prepareV3Chart chart = .error err →
      ∀ run : JobRunner V3Chart,
        s.RunV3 run chart cache {}
          = ({ DisplayName := s.Name, FilePath := s.definitionFile, Passed := false,
               ExecError := some err, TestsResult := [] }, cache)) ∧
    (∀ (chart : V2Chart) (err : String), s.prepareV2Chart chart = .error err →
      ∀ run : JobRunner V2Chart,
        s.RunV2 run chart cache {}
          = ({ DisplayName := s.Name, FilePath := s.definitionFile, Passed := false,
               ExecError := some err, TestsResult := [] }, cache)) :=
  ⟨fun chart err h run => RunV3_of_error s run chart cache {} err h,
    fun chart err h run => RunV2_of_error s run chart cache {} err h⟩

theorem Run_scoping_error_runs_no_job_witness :
    suiteMissing.prepareV3Chart exampleV3
        = .error "template file `templates/missing.yaml` not found in chart" ∧
      suiteMissing.RunV3 runnerV3 exampleV3 { Compared := 7 } {}
        = ({ DisplayName := "missing suite", FilePath := "tests/missing_test.yaml",
             Passed := false,
             ExecError := some "template file `templates/missing.yaml` not found in chart",
             TestsResult := [] }, { Compared := 7 }) :=
  ⟨rfl, (Run_scoping_error_runs_no_job suiteMissing { Compared := 7 }).1 exampleV3 _ rfl
    runnerV3⟩

/-! ## The NUnit report -/

theorem testsLoop_spec (env : ReportEnv) (classname : String) (tests : List TestJobResult)
    (n : Counters) (ts : NUnitTestSuite) :
    nUnitReportXML.testsLoop env classname tests n ts
      = ({ totalTests := n.totalTests + tests.length
           totalErrors := n.totalErrors + tests.countP jobErrored
           totalFailures := n.totalFailures + tests.countP jobFailed },
         { ts with
           TestCases := ts.TestCases ++ tests.map (nUnitReportXML.testCase env classname) }) := by
  induction tests generalizing n ts with
  | nil => simp [nUnitReportXML.testsLoop]
  | cons test rest ih =>
    rw [nUnitReportXML.testsLoop, ih]
    cases hp : test.Passed <;> cases he : test.ExecError <;>
      simp [nUnitReportXML.countTest, jobErrored, jobFailed, hp, he, List.countP_cons] <;> omega

theorem suiteStep_spec (env : ReportEnv) (r : TestSuiteResult) (n : Counters) :
    nUnitReportXML.suiteStep env r n
      = ({ totalTests := n.totalTests + suiteTests r
           totalErrors := n.totalErrors + suiteErrors r
           totalFailures := n.totalFailures + suiteFailures r },
         nUnitReportXML.suiteElement env r) := by
  unfold nUnitReportXML.suiteElement nUnitReportXML.suiteStep
  cases he : r.ExecError with
  | some err => simp [suiteTests, suiteErrors, suiteFailures, he]
  | none => simp [testsLoop_spec, suiteTests, suiteErrors, suiteFailures, he]

theorem suitesLoop_spec (env : ReportEnv) (results : List TestSuiteResult) (n : Counters)
    (totalSuccess : Bool) (testSuites : List NUnitTestSuite) :
    nUnitReportXML.suitesLoop env results n totalSuccess testSuites
      = ({ totalTests := n.totalTests + (results.map suiteTests).sum
           totalErrors := n.totalErrors + (results.map suiteErrors).sum
           totalFailures := n.totalFailures + (results.map suiteFailures).sum },
         totalSuccess && results.all (fun r => r.Passed),
         testSuites ++ results.map (nUnitReportXML.suiteElement env)) := by
  induction results generalizing n totalSuccess testSuites with
  | nil => simp [nUnitReportXML.suitesLoop]
  | cons r rest ih =>
    rw [nUnitReportXML.suitesLoop]
    simp only [suiteStep_spec, ih]
    simp [Nat.add_assoc, Bool.and_assoc]

theorem nunitResult_counts (env : ReportEnv) (results : List TestSuiteResult) :
    (nUnitReportXML.nunitResult env results).Total = (results.map suiteTests).sum ∧
      (nUnitReportXML.nunitResult env results).Errors = (results.map suiteErrors).sum ∧
      (nUnitReportXML.nunitResult env results).Failures = (results.map suiteFailures).sum ∧
      (nUnitReportXML.nunitResult env results).TestSuite
        = results.map (nUnitReportXML.suiteElement env) := by
  simp [nUnitReportXML.nunitResult, suitesLoop_spec]

/-- When suites with an execution error list no job, the per-suite
contributions add up to the specification's counting rule. -/
theorem counts_of_error_suites_empty (results : List TestSuiteResult)
    (h : ∀ r ∈ results, r.ExecError.isSome = true → r.TestsResult = []) :
    (results.map suiteTests).sum
        = errorSuiteCount results + jobCount (fun _ => true) results ∧
      (results.map suiteErrors).sum = errorSuiteCount results + jobCount jobErrored results ∧
      (results.map suiteFailures).sum = jobCount jobFailed results := by
  induction results with
  | nil => simp [errorSuiteCount, jobCount]
  | cons r rest ih =>
    obtain ⟨h1, h2, h3⟩ := ih (fun x hx => h x (List.mem_cons_of_mem _ hx))
    have hr := h r (List.mem_cons_self _ _)
    simp only [List.map_cons, List.sum_cons, h1, h2, h3, errorSuiteCount, jobCount,
      List.countP_cons]
    cases he : r.ExecError.isSome with
    | true =>
      have hnil := hr he
      simp [suiteTests, suiteErrors, suiteFailures, he, hnil]
      omega
    | false =>
      simp [suiteTests, suiteErrors, suiteFailures, he]
      omega

/-- C6. For a list of suite results in which every suite with an execution
error has an empty job list, the document built by `WriteTestOutput` has
`Total` = suites with an execution error + all job results, `Errors` =
suites with an execution error + job results that did not pass and carry an
execution error, `Failures` = job results that did not pass and carry no
execution error. Two suites of two jobs with one assertion failure give
total 4, failures 1, errors 0. -/
theorem WriteTestOutput_counters (env : ReportEnv) (results : List TestSuiteResult)
    (h : ∀ r ∈ results, r.ExecError ≠ none → r.TestsResult = []) :
    (nUnitReportXML.nunitResult env results).Total
        = results.countP (fun r => r.ExecError.isSome)
          + (results.map (fun r => r.TestsResult.length)).sum ∧
      (nUnitReportXML.nunitResult env results).Errors
        = results.countP (fun r => r.ExecError.isSome)
          + (results.map (fun r =>
              r.TestsResult.countP (fun j => !j.Passed && j.ExecError.isSome))).sum ∧
      (nUnitReportXML.nunitResult env results).Failures
        = (results.map (fun r =>
              r.TestsResult.countP (fun j => !j.Passed && j.ExecError.isNone))).sum ∧
      (nUnitReportXML.nunitResult env exampleRun).Total = 4 ∧
      (nUnitReportXML.nunitResult env exampleRun).Failures = 1 ∧
      (nUnitReportXML.nunitResult env exampleRun).Errors = 0 := by
  have h' : ∀ r ∈ results, r.ExecError.isSome = true → r.TestsResult = [] := by
    intro r hr hs
    exact h r hr (by intro hn; simp [hn] at hs)
  obtain ⟨c1, c2, c3⟩ := counts_of_error_suites_empty results h'
  obtain ⟨t1, t2, t3, _⟩ := nunitResult_counts env results
  obtain ⟨e1, e2, e3, _⟩ := nunitResult_counts env exampleRun
  refine ⟨?_, ?_, ?_, ?_, ?_, ?_⟩
  · rw [t1, c1]; simp [errorSuiteCount, jobCount]
  · rw [t2, c2]; rfl
  · rw [t3, c3]; rfl
  · rw [e1]; rfl
  · rw [e3]; decide
  · rw [e2]; decide

theorem WriteTestOutput_counters_witness :
    (∀ r ∈ exampleRun ++ [{ ExecError := some "no chart" }, erroredJobRun],
        r.ExecError ≠ none → r.TestsResult = []) ∧
      (nUnitReportXML.nunitResult exampleEnv
        (exampleRun ++ [{ ExecError := some "no chart" }, erroredJobRun])).Total = 1 + 5 ∧
      (nUnitReportXML.nunitResult exampleEnv
        (exampleRun ++ [{ ExecError := some "no chart" }, erroredJobRun])).Errors = 1 + 1 ∧
      (nUnitReportXML.nunitResult exampleEnv
        (exampleRun ++ [{ ExecError := some "no chart" }, erroredJobRun])).Failures = 1 :=
  ⟨by decide,
    (WriteTestOutput_counters exampleEnv
      (exampleRun ++ [{ ExecError := some "no chart" }, erroredJobRun]) (by decide)).1,
    (WriteTestOutput_counters exampleEnv
      (exampleRun ++ [{ ExecError := some "no chart" }, erroredJobRun]) (by decide)).2.1,
    (WriteTestOutput_counters exampleEnv
      (exampleRun ++ [{ ExecError := some "no chart" }, erroredJobRun]) (by decide)).2.2.1⟩

theorem suiteElement_of_error (env : ReportEnv) (r : TestSuiteResult) (err : String)
    (h : r.ExecError = some err) :
    (nUnitReportXML.suiteElement env r).Failure
        = some { Message := "Error", StackTrace := err } ∧
      (nUnitReportXML.suiteElement env r).TestCases = [] ∧
      (nUnitReportXML.suiteElement env r).Executed = "false" := by
  simp [nUnitReportXML.suiteElement, nUnitReportXML.suiteStep, h, strconvFormatBool]

theorem suiteElement_of_no_error (env : ReportEnv) (r : TestSuiteResult)
    (h : r.ExecError = none) :
    (nUnitReportXML.suiteElement env r).Failure = none ∧
      (nUnitReportXML.suiteElement env r).TestCases
        = r.TestsResult.map
            (nUnitReportXML.testCase env (nUnitReportXML.classname r.DisplayName)) := by
  simp [nUnitReportXML.suiteElement, nUnitReportXML.suiteStep, h, testsLoop_spec]

theorem nunitResult_element_at (env : ReportEnv) (pre post : List TestSuiteResult)
    (r : TestSuiteResult) :
    (nUnitReportXML.nunitResult env (pre ++ r :: post)).TestSuite[pre.length]?
      = some (nUnitReportXML.suiteElement env r) := by
  rw [(nunitResult_counts env (pre ++ r :: post)).2.2.2, List.map_append, List.map_cons,
    List.getElem?_append_right (by simp)]
  simp

/-- C7, as stated, fails: the test-case element of a job that failed on an
execution error carries the failure message "Failed", not "Error". -/
theorem WriteTestOutput_errored_job_message_is_Failed :
    erroredJobRun.ExecError = none ∧
      erroredJobRun.TestsResult.map (fun j => (j.Passed, j.ExecError))
        = [(false, some "boom")] ∧
      (nUnitReportXML.nunitResult exampleEnv [erroredJobRun]).TestSuite.map
          (fun ts => ts.TestCases.map (fun tc => tc.Failure))
        = [[some { Message := "Failed", StackTrace := "job c0 failed" }]] :=
  ⟨rfl, rfl, by decide⟩

/-- C7, amended. For every job result of a suite result without execution
error, the test-case element built by `WriteTestOutput` (at the position of
the job inside the suite element, itself at the position of the suite)
carries a failure element exactly when the job did not pass, and that
failure element has the literal message "Failed" and the rendered text of
the job as detail, whether or not the job has an execution error. -/
theorem WriteTestOutput_test_case_failure (env : ReportEnv)
    (pre post : List TestSuiteResult) (r : TestSuiteResult) (h : r.ExecError = none) :
    ∃ ts, (nUnitReportXML.nunitResult env (pre ++ r :: post)).TestSuite[pre.length]? = some ts ∧
      ts.TestCases.length = r.TestsResult.length ∧
      ∀ (i : Nat) (test : TestJobResult), r.TestsResult[i]? = some test →
        ∃ tc, ts.TestCases[i]? = some tc ∧
          (tc.Failure.isSome = true ↔ test.Passed = false) ∧
          (test.Passed = false →
            tc.Failure = some { Message := "Failed", StackTrace := env.stringify test }) := by
  refine ⟨_, nunitResult_element_at env pre post r, ?_, ?_⟩
  · rw [(suiteElement_of_no_error env r h).2]; simp
  · intro i test hi
    refine ⟨nUnitReportXML.testCase env (nUnitReportXML.classname r.DisplayName) test, ?_, ?_, ?_⟩
    · rw [(suiteElement_of_no_error env r h).2]; simp [hi]
    · cases hp : test.Passed <;> simp [nUnitReportXML.testCase, hp]
    · intro hp; simp [nUnitReportXML.testCase, hp]

theorem WriteTestOutput_test_case_failure_witness :
    erroredJobRun.ExecError = none ∧
      ∃ ts, (nUnitReportXML.nunitResult exampleEnv
          (exampleRun ++ erroredJobRun :: [])).TestSuite[exampleRun.length]? = some ts ∧
        ts.TestCases.length = erroredJobRun.TestsResult.length ∧
        ∀ (i : Nat) (test : TestJobResult), erroredJobRun.TestsResult[i]? = some test →
          ∃ tc, ts.TestCases[i]? = some tc ∧
            (tc.Failure.isSome = true ↔ test.Passed = false) ∧
            (test.Passed = false →
              tc.Failure
                = some { Message := "Failed", StackTrace := exampleEnv.stringify test }) :=
  ⟨rfl, WriteTestOutput_test_case_failure exampleEnv exampleRun [] erroredJobRun rfl⟩

/-- C8. For every suite result whose `ExecError` is set, whatever its job
list contains, the suite element built by `WriteTestOutput` (at the position
of the suite) has the failure child with message "Error" and the error text
as detail, no test-case child, and `executed = "false"`; and the suite adds
exactly 1 to `Total`, 1 to `Errors` and 0 to `Failures` of the document,
compared with the document for the same list without that suite. -/
theorem WriteTestOutput_error_suite (env : ReportEnv) (pre post : List TestSuiteResult)
    (r : TestSuiteResult) (err : String) (h : r.ExecError = some err) :
    (∃ ts, (nUnitReportXML.nunitResult env (pre ++ r :: post)).TestSuite[pre.length]? = some ts ∧
      ts.Failure = some { Message := "Error", StackTrace := err } ∧
      ts.TestCases = [] ∧ ts.Executed = "false") ∧
    (nUnitReportXML.nunitResult env (pre ++ r :: post)).TestSuite.length
      = (nUnitReportXML.nunitResult env (pre ++ post)).TestSuite.length + 1 ∧
    (nUnitReportXML.nunitResult env (pre ++ r :: post)).Total
      = (nUnitReportXML.nunitResult env (pre ++ post)).Total + 1 ∧
    (nUnitReportXML.nunitResult env (pre ++ r :: post)).Errors
      = (nUnitReportXML.nunitResult env (pre ++ post)).Errors + 1 ∧
    (nUnitReportXML.nunitResult env (pre ++ r :: post)).Failures
      = (nUnitReportXML.nunitResult env (pre ++ post)).Failures := by
  obtain ⟨a1, a2, a3, a4⟩ := nunitResult_counts env (pre ++ r :: post)
  obtain ⟨b1, b2, b3, b4⟩ := nunitResult_counts env (pre ++ post)
  have hs : r.ExecError.isSome = true := by simp [h]
  refine ⟨⟨_, nunitResult_element_at env pre post r, suiteElement_of_error env r err h⟩,
    ?_, ?_, ?_, ?_⟩
  · rw [a4, b4]; simp; omega
  · rw [a1, b1]; simp [suiteTests, hs]; omega
  · rw [a2, b2]; simp [suiteErrors, hs]; omega
  · rw [a3, b3]; simp [suiteFailures, hs]

theorem WriteTestOutput_error_suite_witness :
    erroredSuiteRun.ExecError = some "no chart" ∧ erroredSuiteRun.TestsResult ≠ [] ∧
      (∃ ts, (nUnitReportXML.nunitResult exampleEnv
          (exampleRun ++ erroredSuiteRun :: [erroredJobRun])).TestSuite[exampleRun.length]?
            = some ts ∧
        ts.Failure = some { Message := "Error", StackTrace := "no chart" } ∧
        ts.TestCases = [] ∧ ts.Executed = "false") ∧
      (nUnitReportXML.nunitResult exampleEnv
          (exampleRun ++ erroredSuiteRun :: [erroredJobRun])).Total
        = (nUnitReportXML.nunitResult exampleEnv (exampleRun ++ [erroredJobRun])).Total + 1 :=
  ⟨rfl, by decide,
    (WriteTestOutput_error_suite exampleEnv exampleRun [erroredJobRun] erroredSuiteRun
      "no chart" rfl).1,
    (WriteTestOutput_error_suite exampleEnv exampleRun [erroredJobRun] erroredSuiteRun
      "no chart" rfl).2.2.1⟩

/-! ## Route chains and value scoping -/

theorem scopeValuesWithRoutes_three (a b c : String) (values : ValueMap) :
    scopeValuesWithRoutes [a, b, c] values
      = [(Value.str b, Value.map [(Value.str c, Value.map values)])] := by
  simp [scopeValuesWithRoutes]

/-- C9, as stated, fails: for the chain `[a, b, c]` the result is neither
`{a: {b: {c: M}}}` nor `{c: {b: {a: M}}}`; it is `{b: {c: M}}`. -/
theorem scopeValuesWithRoutes_three_is_not_three_levels :
    scopeValuesWithRoutes ["a", "b", "c"] [(Value.str "k", Value.str "v")]
        = [(Value.str "b", Value.map [(Value.str "c",
            Value.map [(Value.str "k", Value.str "v")])])] ∧
      scopeValuesWithRoutes ["a", "b", "c"] [(Value.str "k", Value.str "v")]
        ≠ [(Value.str "a", Value.map [(Value.str "b", Value.map [(Value.str "c",
            Value.map [(Value.str "k", Value.str "v")])])])] ∧
      scopeValuesWithRoutes ["a", "b", "c"] [(Value.str "k", Value.str "v")]
        ≠ [(Value.str "c", Value.map [(Value.str "b", Value.map [(Value.str "a",
            Value.map [(Value.str "k", Value.str "v")])])])] := by
  rw [scopeValuesWithRoutes_three]
  refine ⟨rfl, ?_, ?_⟩ <;> simp

/-- C9, amended. For every chain of three package names `[a, b, c]` and
every value map `M`, `scopeValuesWithRoutes([a, b, c], M)` is the two-level
nested map `{b: {c: M}}`: each name after the first is the sole key of one
nesting level, in chain order from the outside in, `M` sits at depth two,
and the first name of the chain is not used as a key. -/
theorem scopeValuesWithRoutes_three_is_two_levels (a b c : String) (values : ValueMap) :
    scopeValuesWithRoutes [a, b, c] values
      = [(Value.str b, Value.map [(Value.str c, Value.map values)])] :=
  scopeValuesWithRoutes_three a b c values

theorem spliteChartRoutes_loop_spec (splited : List String) (fuel r : Nat)
    (routes : List String) (hlen : r + fuel = routes.length)
    (hin : ∀ i, r ≤ i → i < routes.length → i * 2 < splited.length) :
    ∃ out, spliteChartRoutes.loop splited fuel r routes = .ok out ∧
      out.length = routes.length ∧
      ∀ i, i < routes.length → out[i]? = if i < r then routes[i]? else splited[i * 2]? := by
  induction fuel generalizing r routes with
  | zero =>
    refine ⟨routes, rfl, rfl, ?_⟩
    intro i hi
    have : i < r := by omega
    simp [this]
  | succ fuel ih =>
    have hr : r < routes.length := by omega
    have hidx : r * 2 < splited.length := hin r (Nat.le_refl r) hr
    obtain ⟨out, h1, h2, h3⟩ := ih (r + 1) (routes.set r splited[r * 2])
      (by simp; omega) (by intro i hi hi'; exact hin i (by omega) (by simpa using hi'))
    refine ⟨out, ?_, by simpa using h2, ?_⟩
    · simp only [spliteChartRoutes.loop, List.getElem?_eq_getElem hidx]
      exact h1
    · intro i hi
      rw [h3 i (by simpa using hi)]
      by_cases hlt : i < r
      · have hne : r ≠ i := by omega
        simp [hlt, Nat.lt_succ_of_lt hlt, List.getElem?_set_ne hne]
      · by_cases heq : i = r
        · subst heq
          simp [List.getElem?_set, hr, List.getElem?_eq_getElem hidx]
        · have h1 : ¬ i < r + 1 := by omega
          simp [hlt, h1]

/-- C10. For every route whose split on the separator has `2n+1` segments,
`spliteChartRoutes` returns (without an indexing panic) a list of exactly
`n+1` names whose `i`-th element is segment `2i` of the route, in route
order; when the segments are `[p0, m1, p1, m2, p2]` the list is
`[p0, p1, p2]`. -/
theorem spliteChartRoutes_odd_segments (routePath : String) (n : Nat)
    (h : (stringsSplit routePath Separator).length = 2 * n + 1) :
    (∃ routes, spliteChartRoutes routePath = .ok routes ∧
      routes.length = n + 1 ∧
      ∀ i, i < n + 1 → routes[i]? = (stringsSplit routePath Separator)[2 * i]? ∧
        (routes[i]?).isSome = true) ∧
    (∀ p0 m1 p1 m2 p2 : String,
      stringsSplit routePath Separator = [p0, m1, p1, m2, p2] →
      spliteChartRoutes routePath = .ok [p0, p1, p2]) := by
  have hN : (stringsSplit routePath Separator).length / 2 + 1 = n + 1 := by omega
  obtain ⟨out, h1, h2, h3⟩ := spliteChartRoutes_loop_spec (stringsSplit routePath Separator)
    (List.replicate ((stringsSplit routePath Separator).length / 2 + 1) "").length 0
    (List.replicate ((stringsSplit routePath Separator).length / 2 + 1) "")
    (by simp) (by intro i _ hi; simp at hi; omega)
  have hrun : spliteChartRoutes routePath = .ok out := h1
  have hlen : out.length = n + 1 := by rw [h2]; simp [hN]
  have hget : ∀ i, i < n + 1 → out[i]? = (stringsSplit routePath Separator)[2 * i]? := by
    intro i hi
    rw [h3 i (by simp; omega)]
    simp [Nat.mul_comm]
  refine ⟨⟨out, hrun, hlen, fun i hi => ⟨hget i hi, ?_⟩⟩, ?_⟩
  · rw [List.getElem?_eq_getElem (by omega)]; rfl
  · intro p0 m1 p1 m2 p2 hseg
    have hn : n = 2 := by rw [hseg] at h; simp at h; omega
    subst hn
    have e0 := hget 0 (by omega)
    have e1 := hget 1 (by omega)
    have e2 := hget 2 (by omega)
    rw [hseg] at e0 e1 e2
    simp at e0 e1 e2
    rw [hrun]
    congr 1
    apply List.ext_getElem?
    intro i
    rcases i with _ | _ | _ | i
    · simpa using e0
    · simpa using e1
    · simpa using e2
    · have : out.length ≤ i + 1 + 1 + 1 := by omega
      simp [List.getElem?_eq_none this]

theorem spliteChartRoutes_odd_segments_witness :
    (stringsSplit "demo/charts/child/charts/leaf" Separator).length = 2 * 2 + 1 ∧
      stringsSplit "demo/charts/child/charts/leaf" Separator
        = ["demo", "charts", "child", "charts", "leaf"] ∧
      spliteChartRoutes "demo/charts/child/charts/leaf" = .ok ["demo", "child", "leaf"] :=
  ⟨by decide, by decide,
    (spliteChartRoutes_odd_segments "demo/charts/child/charts/leaf" 2 (by decide)).2
      "demo" "charts" "child" "charts" "leaf" (by decide)⟩

/-! ## Diagnostic text of an assertion result -/

theorem stringify_loop_eq (infos : List String) (content : String) :
    AssertionResult.stringify.loop infos content = content ++ infoLines infos := by
  induction infos generalizing content with
  | nil => simp [AssertionResult.stringify.loop, infoLines]
  | cons l rest ih =>
    simp [AssertionResult.stringify.loop, infoLines, ih, String.append_assoc]

theorem stringify_eq (ar : AssertionResult) :
    ar.stringify = "\t\t " ++ titleText ar ++ " \n" ++ infoLines ar.FailInfo := by
  unfold AssertionResult.stringify
  rw [stringify_loop_eq]
  by_cases h : ar.CustomInfo = ""
  · simp [titleText, AssertionResult.generatedTitle, h, String.append_assoc]
  · simp [titleText, h, String.append_assoc]

theorem newlineCount_append (s t : String) :
    newlineCount (s ++ t) = newlineCount s + newlineCount t := by
  simp [newlineCount, String.data_append, List.count_append]

theorem newlineCount_of_not_mem (s : String) (h : '\n' ∉ s.data) : newlineCount s = 0 := by
  simpa [newlineCount, List.count_eq_zero] using h

theorem newlineCount_infoLines (infos : List String) (h : ∀ l ∈ infos, '\n' ∉ l.data) :
    newlineCount (infoLines infos) = infos.length := by
  induction infos with
  | nil => rfl
  | cons l rest ih =>
    have hl := newlineCount_of_not_mem l (h l (List.mem_cons_self _ _))
    have hrest := ih (fun x hx => h x (List.mem_cons_of_mem _ hx))
    have h1 : newlineCount "\t\t\t " = 0 := by decide
    have h2 : newlineCount " \n" = 1 := by decide
    simp only [infoLines, newlineCount_append, hl, hrest, h1, h2, List.length_cons]
    omega

/-- C11: what the code does on a passing result. `print` writes nothing to
the printer, but `stringify` does not look at `Passed` and returns the title
line (and the detail lines) all the same. -/
theorem stringify_of_passed_is_not_empty :
    passedAssertion.Passed = true ∧
      passedAssertion.print id [] = [] ∧
      passedAssertion.stringify = "\t\t - asserts[0] `equal` fail \n" ∧
      passedAssertion.stringify ≠ "" :=
  ⟨rfl, rfl, by decide, by decide⟩

/-- C12. `stringify` returns the title line followed by one line per entry
of `FailInfo`, in order, each one tab deeper than the title. The title is
the custom title when `CustomInfo` is non-empty, and then `Index`, `Not` and
`AssertType` play no part; otherwise it is `- asserts[<Index>]`, then ` NOT`
for a negated assertion, then `AssertType` between backquotes and `fail`.
When neither the title nor a detail line holds a newline, the result holds
exactly `1 + len(FailInfo)` newline characters. -/
theorem stringify_title_then_info_lines (ar : AssertionResult) :
    ar.stringify = "\t\t " ++ titleText ar ++ " \n" ++ infoLines ar.FailInfo ∧
      (ar.CustomInfo ≠ "" →
        titleText ar = ar.CustomInfo ∧
        ∀ (index : Int) (negated : Bool) (assertType : String),
          ({ ar with Index := index, Not := negated, AssertType := assertType }
            : AssertionResult).stringify = ar.stringify) ∧
      (ar.CustomInfo = "" →
        titleText ar = "- asserts[" ++ fmtInt ar.Index ++ "]" ++ (if ar.Not then " NOT" else "")
          ++ " `" ++ ar.AssertType ++ "` fail") ∧
      ('\n' ∉ (titleText ar).data → (∀ l ∈ ar.FailInfo, '\n' ∉ l.data) →
        newlineCount ar.stringify = 1 + ar.FailInfo.length) := by
  refine ⟨stringify_eq ar, ?_, ?_, ?_⟩
  · intro h
    refine ⟨by simp [titleText, h], ?_⟩
    intro index negated assertType
    rw [stringify_eq, stringify_eq]
    simp [titleText, h]
  · intro h
    simp [titleText, h]
  · intro ht hl
    have h1 : newlineCount "\t\t " = 0 := by decide
    have h2 : newlineCount " \n" = 1 := by decide
    rw [stringify_eq, newlineCount_append, newlineCount_append, newlineCount_append,
      newlineCount_of_not_mem _ ht, newlineCount_infoLines _ hl, h1, h2]

theorem stringify_title_then_info_lines_witness :
    (titledAssertion.CustomInfo ≠ "" ∧
      ({ titledAssertion with Index := 9, Not := true, AssertType := "equal" }
        : AssertionResult).stringify = titledAssertion.stringify) ∧
    (failedAssertion.CustomInfo = "" ∧
      titleText failedAssertion = "- asserts[2] NOT `equal` fail") ∧
    ('\n' ∉ (titleText failedAssertion).data ∧
      (∀ l ∈ failedAssertion.FailInfo, '\n' ∉ l.data) ∧
      newlineCount failedAssertion.stringify = 1 + 2) :=
  ⟨⟨by decide, ((stringify_title_then_info_lines titledAssertion).2.1 (by decide)).2 9 true
      "equal"⟩,
    ⟨by decide, (stringify_title_then_info_lines failedAssertion).2.2.1 (by decide)⟩,
    ⟨by decide, by decide,
      (stringify_title_then_info_lines failedAssertion).2.2.2 (by decide) (by decide)⟩⟩

/-! ## Writing the report -/

theorem splitChars_cases (sep : Char) (cs : List Char) :
    ∃ piece pieces, splitChars sep cs = piece :: pieces := by
  cases h : splitChars sep cs with
  | nil => exact absurd h (splitChars_ne_nil sep cs)
  | cons piece pieces => exact ⟨piece, pieces, rfl⟩

/-- With a user record at hand `formatUserAndDomain` does not panic. -/
theorem formatUserAndDomain_of_some (settings : OSUser) :
    ∃ domainName userName,
      nUnitReportXML.formatUserAndDomain (some settings) = .ok (domainName, userName) := by
  obtain ⟨piece, pieces, h⟩ := splitChars_cases (Char.ofNat 92) settings.Username.data
  unfold nUnitReportXML.formatUserAndDomain stringsSplit
  simp only [h, List.map_cons]
  by_cases h2 : (String.mk piece :: List.map String.mk pieces).length = 2
  · rw [if_pos h2]
    match pieces, h2 with
    | [p], _ => exact ⟨_, _, rfl⟩
  · rw [if_neg h2]
    exact ⟨_, _, rfl⟩

/-- What `WriteTestOutput` returns once the user lookup has given a record:
the error of the encoder when the encoding fails, and otherwise nil after
the four writer calls, whose errors are not read. -/
theorem WriteTestOutput_of_user (σ : Type) (env : ReportEnv) (currentUser : Option OSUser)
    (marshal : NUnitTestResults → Except String String) (writer : BufferedWriter σ)
    (results : List TestSuiteResult) (noXMLHeader : Bool) (w : σ)
    (domainName userName : String)
    (huser : nUnitReportXML.formatUserAndDomain currentUser = .ok (domainName, userName)) :
    nUnitReportXML.WriteTestOutput env currentUser marshal writer results noXMLHeader w
      = match marshal (nUnitReportXML.nunitResult
            { env with domainName := domainName, userName := userName } results) with
        | .error err => .ok (some err, w)
        | .ok bytes =>
          .ok (none,
            (writer.Flush (writer.WriteByte (writer.Write
              (if noXMLHeader then w else (writer.WriteString w xmlHeader).1) bytes).1 '\n').1).1) := by
  unfold nUnitReportXML.WriteTestOutput
  rw [huser]
  dsimp only
  generalize marshal (nUnitReportXML.nunitResult
      { env with domainName := domainName, userName := userName } results) = encoded
  cases encoded with
  | error err => rfl
  | ok bytes => cases noXMLHeader <;> rfl

/-- C13: what the code does when the sink fails. Over a sink that rejects the
flush, `WriteTestOutput` returns nil although `Flush` returned an error: the
results of `WriteString`, `Write`, `WriteByte` and `Flush` are dropped, the
document stays in the buffer and the sink has accepted nothing. -/
theorem WriteTestOutput_returns_nil_after_failed_flush :
    nUnitReportXML.WriteTestOutput exampleEnv (some domainUser) marshalCounters
        (bufferedOver (some "disk full")) exampleRun false {}
      = .ok (none,
          { buffered := xmlHeader ++ "<test-results total=4 errors=0 failures=1/>" ++ "\n",
            accepted := "", err := some "disk full" }) ∧
      ((bufferedOver (some "disk full")).Flush
          { buffered := xmlHeader ++ "<test-results total=4 errors=0 failures=1/>" ++ "\n" }).2
        = some "disk full" :=
  ⟨rfl, rfl⟩

/-- C14: what the code does when the lookup of the current user fails.
`user.Current()` then returns a nil pointer, `formatUserAndDomain` reads
`Username` through it and panics, and so does `WriteTestOutput`, which calls
it first: no report is produced, whatever the results, encoder and sink. -/
theorem formatUserAndDomain_panics_without_user (σ : Type) (env : ReportEnv)
    (marshal : NUnitTestResults → Except String String) (writer : BufferedWriter σ)
    (results : List TestSuiteResult) (noXMLHeader : Bool) (w : σ) :
    nUnitReportXML.formatUserAndDomain none = .error Panic.nilPointerDereference ∧
      nUnitReportXML.WriteTestOutput env none marshal writer results noXMLHeader w
        = .error Panic.nilPointerDereference :=
  ⟨rfl, rfl⟩

/-! ## The class name of a suite -/

theorem splitChars_of_not_mem (sep : Char) (cs : List Char) (h : sep ∉ cs) :
    splitChars sep cs = [cs] := by
  induction cs with
  | nil => rfl
  | cons x xs ih =>
    have hx : ¬ x = sep := fun e => h (by simp [e])
    have hxs : sep ∉ xs := fun e => h (List.mem_cons_of_mem _ e)
    simp [splitChars, hx, ih hxs]

theorem lastPiece_of_not_mem (sep : Char) (cs : List Char) (h : sep ∉ cs) :
    lastPiece sep cs = cs := by
  simp [lastPiece, splitChars_of_not_mem sep cs h]

theorem lastPiece_cons_sep (sep : Char) (xs : List Char) :
    lastPiece sep (sep :: xs) = lastPiece sep xs := by
  obtain ⟨piece, pieces, h⟩ := splitChars_cases sep xs
  simp [lastPiece, splitChars, h, List.getLast?_cons_cons]

theorem lastPiece_cons_of_mem (sep x : Char) (xs : List Char) (hx : ¬ x = sep)
    (hmem : sep ∈ xs) : lastPiece sep (x :: xs) = lastPiece sep xs := by
  obtain ⟨piece, pieces, h⟩ := splitChars_cases sep xs
  have hlen := splitChars_length sep xs
  rw [h] at hlen
  have hpos : 0 < xs.count sep := List.count_pos_iff.mpr hmem
  cases pieces with
  | nil => simp at hlen; omega
  | cons p ps => simp [lastPiece, splitChars, hx, h, List.getLast?_cons_cons]

theorem lastPiece_no_sep (sep : Char) (cs : List Char) : sep ∉ lastPiece sep cs := by
  induction cs with
  | nil => simp [lastPiece, splitChars]
  | cons x xs ih =>
    by_cases hx : x = sep
    · subst hx; rw [lastPiece_cons_sep]; exact ih
    · by_cases hmem : sep ∈ xs
      · rw [lastPiece_cons_of_mem sep x xs hx hmem]; exact ih
      · rw [lastPiece_of_not_mem]
        · intro h
          rcases List.mem_cons.mp h with e | e
          · exact hx e.symm
          · exact hmem e
        · intro h
          rcases List.mem_cons.mp h with e | e
          · exact hx e.symm
          · exact hmem e

theorem lastPiece_append_sep (sep : Char) (cs : List Char) :
    lastPiece sep (cs ++ [sep]) = [] := by
  induction cs with
  | nil => simp [lastPiece, splitChars]
  | cons x xs ih =>
    by_cases hx : x = sep
    · subst hx; rw [List.cons_append, lastPiece_cons_sep]; exact ih
    · rw [List.cons_append, lastPiece_cons_of_mem sep x _ hx (by simp)]; exact ih

/-- The forward scan for the last separator: without a separator it returns
the value it was given, and otherwise the position of a separator after
which the rest of the list is the last piece. -/
theorem lastIndexChars_spec (sep : Char) (cs : List Char) (pos : Nat) (found : Int) :
    (sep ∉ cs → lastIndexChars sep cs pos found = found) ∧
      (sep ∈ cs → ∃ k, lastIndexChars sep cs pos found = ((pos + k : Nat) : Int) ∧
        k < cs.length ∧ cs.drop (k + 1) = lastPiece sep cs) := by
  induction cs generalizing pos found with
  | nil => simp [lastIndexChars]
  | cons x xs ih =>
    obtain ⟨ih1, ih2⟩ := ih (pos + 1) (if x = sep then (pos : Int) else found)
    by_cases hmem : sep ∈ xs
    · obtain ⟨k, hk, hlt, hdrop⟩ := ih2 hmem
      refine ⟨fun h => absurd (List.mem_cons_of_mem _ hmem) h, fun _ => ⟨k + 1, ?_, ?_, ?_⟩⟩
      · rw [lastIndexChars, hk]; congr 1; omega
      · simp; omega
      · by_cases hx : x = sep
        · subst hx; rw [lastPiece_cons_sep]; simpa using hdrop
        · rw [lastPiece_cons_of_mem sep x xs hx hmem]; simpa using hdrop
    · have hr := ih1 hmem
      by_cases hx : x = sep
      · subst hx
        refine ⟨fun h => absurd (List.mem_cons_self _ _) h, fun _ => ⟨0, ?_, by simp, ?_⟩⟩
        · rw [lastIndexChars, hr]; simp
        · rw [lastPiece_cons_sep, lastPiece_of_not_mem _ _ hmem]; simp
      · refine ⟨fun _ => ?_, fun h => ?_⟩
        · rw [lastIndexChars, hr]; simp [hx]
        · rcases List.mem_cons.mp h with e | e
          · exact absurd e.symm hx
          · exact absurd e hmem

theorem classname_eq_lastPiece (displayName : String) :
    nUnitReportXML.classname displayName = String.mk (lastPiece '/' displayName.data) := by
  obtain ⟨h1, h2⟩ := lastIndexChars_spec '/' displayName.data 0 (-1)
  unfold nUnitReportXML.classname stringsLastIndex
  by_cases hmem : '/' ∈ displayName.data
  · obtain ⟨k, hk, hlt, hdrop⟩ := h2 hmem
    have hcond : (lastIndexChars '/' displayName.data 0 (-1) > -1 ∧
        lastIndexChars '/' displayName.data 0 (-1) < (displayName.length : Int)) := by
      rw [hk]; constructor
      · omega
      · simp only [String.length]; omega
    simp only [hcond, and_self, if_true]
    rw [hk]
    have : ((((0 + k : Nat) : Int) + 1).toNat) = k + 1 := by omega
    rw [this, hdrop]
  · have hr := h1 hmem
    have hcond : ¬ (lastIndexChars '/' displayName.data 0 (-1) > -1 ∧
        lastIndexChars '/' displayName.data 0 (-1) < (displayName.length : Int)) := by
      rw [hr]; omega
    simp only [hcond, if_false]
    rw [lastPiece_of_not_mem _ _ hmem]

theorem lastPiece_suffix (sep : Char) (cs : List Char) : lastPiece sep cs <:+ cs := by
  by_cases hmem : sep ∈ cs
  · obtain ⟨k, _, _, hdrop⟩ := (lastIndexChars_spec sep cs 0 0).2 hmem
    rw [← hdrop]; exact List.drop_suffix _ _
  · rw [lastPiece_of_not_mem _ _ hmem]

theorem lastSegment_eq (s : String) : lastSegment s = String.mk (lastPiece '/' s.data) := by
  obtain ⟨piece, pieces, h⟩ := splitChars_cases '/' s.data
  simp only [lastSegment, stringsSplit, lastPiece, List.getLast?_map]
  cases hl : (splitChars '/' s.data).getLast? with
  | none => rw [h] at hl; simp [List.getLast?_cons] at hl
  | some p => simp

/-- C15. For every suite display name `D` and job display name `J`, the
description of the test case built by `WriteTestOutput` is `S + "." + J`,
where `S` is the final element of `D` split on `/`: `S` is `D` when `D`
holds no `/`, `S` is empty when `D` ends with `/`, `S` never holds a `/`,
and `D` ends with `S`. -/
theorem WriteTestOutput_description (env : ReportEnv) (r : TestSuiteResult)
    (hr : r.ExecError = none) :
    (nUnitReportXML.suiteElement env r).TestCases.map (fun tc => tc.Description)
        = r.TestsResult.map (fun test => lastSegment r.DisplayName ++ "." ++ test.DisplayName) ∧
      nUnitReportXML.classname r.DisplayName = lastSegment r.DisplayName ∧
      ('/' ∉ r.DisplayName.data → lastSegment r.DisplayName = r.DisplayName) ∧
      ((∃ front, r.DisplayName.data = front ++ ['/']) → lastSegment r.DisplayName = "") ∧
      '/' ∉ (lastSegment r.DisplayName).data ∧
      (lastSegment r.DisplayName).data <:+ r.DisplayName.data := by
  have hc : nUnitReportXML.classname r.DisplayName = lastSegment r.DisplayName := by
    rw [classname_eq_lastPiece, lastSegment_eq]
  refine ⟨?_, hc, ?_, ?_, ?_, ?_⟩
  · rw [(suiteElement_of_no_error env r hr).2, hc, List.map_map]
    apply List.map_congr_left
    intro test _
    cases hp : test.Passed <;> simp [nUnitReportXML.testCase, hp]
  · intro h
    rw [lastSegment_eq, lastPiece_of_not_mem _ _ h]
  · rintro ⟨front, h⟩
    rw [lastSegment_eq, h, lastPiece_append_sep]
  · rw [lastSegment_eq]; exact lastPiece_no_sep '/' _
  · rw [lastSegment_eq]; exact lastPiece_suffix '/' _

theorem WriteTestOutput_description_witness :
    (exampleRun.map (fun r =>
        (nUnitReportXML.suiteElement exampleEnv r).TestCases.map (fun tc => tc.Description)))
      = [["a_test.yaml.a0", "a_test.yaml.a1"], ["b_test.yaml.b0", "b_test.yaml.b1"]] ∧
    (nUnitReportXML.suiteElement exampleEnv
        { DisplayName := "suite", TestsResult := [{ DisplayName := "job" }] }).TestCases.map
          (fun tc => tc.Description)
      = [lastSegment "suite" ++ "." ++ "job"] ∧
    lastSegment "suite" = "suite" ∧
    lastSegment "tests/" = "" :=
  ⟨by decide,
    (WriteTestOutput_description exampleEnv
      { DisplayName := "suite", TestsResult := [{ DisplayName := "job" }] } rfl).1,
    (WriteTestOutput_description exampleEnv { DisplayName := "suite" } rfl).2.2.1 (by decide),
    (WriteTestOutput_description exampleEnv { DisplayName := "tests/" } rfl).2.2.2.1
      ⟨"tests".data, by decide⟩⟩

/-! ## The job loop -/

theorem jobOutcomes_length {Chart : Type} (run : JobRunner Chart) (chart : Chart)
    (tests : List TestJob) (idx : Nat) (cache : SnapshotCache) :
    (jobOutcomes run chart tests idx cache).length = tests.length := by
  induction tests generalizing idx cache with
  | nil => rfl
  | cons testJob rest ih => simp [jobOutcomes, ih]

theorem jobOutcomes_getElem? {Chart : Type} (run : JobRunner Chart) (chart : Chart)
    (tests : List TestJob) (idx : Nat) (cache : SnapshotCache) (i : Nat) (testJob : TestJob)
    (h : tests[i]? = some testJob) :
    ∃ cacheBefore, (jobOutcomes run chart tests idx cache)[i]?
      = some (run testJob chart cacheBefore { Index := idx + i }).1 := by
  induction tests generalizing idx cache i with
  | nil => simp at h
  | cons first rest ih =>
    cases i with
    | zero =>
      simp at h
      subst h
      exact ⟨cache, by simp [jobOutcomes]⟩
    | succ j =>
      simp at h
      obtain ⟨c, hc⟩ := ih (idx + 1) (run first chart cache { Index := idx }).2 j h
      refine ⟨c, ?_⟩
      simp only [jobOutcomes, List.getElem?_cons_succ, hc]
      congr 4
      omega

theorem runV3TestJobs_loop_results (run : JobRunner V3Chart) (chart : V3Chart)
    (tests : List TestJob) (idx : Nat) (suitePass : Bool) (jobResults : List TestJobResult)
    (cache : SnapshotCache) :
    (runV3TestJobs.loop run chart tests idx suitePass jobResults cache).1.2
      = jobResults ++ jobOutcomes run chart tests idx cache := by
  induction tests generalizing idx suitePass jobResults cache with
  | nil => simp [runV3TestJobs.loop, jobOutcomes]
  | cons testJob rest ih => simp [runV3TestJobs.loop, jobOutcomes, ih]

theorem runV2TestJobs_loop_results (run : JobRunner V2Chart) (chart : V2Chart)
    (tests : List TestJob) (idx : Nat) (suitePass : Bool) (jobResults : List TestJobResult)
    (cache : SnapshotCache) :
    (runV2TestJobs.loop run chart tests idx suitePass jobResults cache).1.2
      = jobResults ++ jobOutcomes run chart tests idx cache := by
  induction tests generalizing idx suitePass jobResults cache with
  | nil => simp [runV2TestJobs.loop, jobOutcomes]
  | cons testJob rest ih => simp [runV2TestJobs.loop, jobOutcomes, ih]

/-- C16. For every suite with `k` declared jobs and every job runner,
`runV3TestJobs` and `runV2TestJobs` return exactly `k` job results, the
`i`-th being the outcome of running the `i`-th declared job on a seed result
with `Index = i` (0-based), in declaration order, whether or not a job fails
or errors: no job is skipped. -/
theorem runTestJobs_one_result_per_job (s : TestSuite) (cache : SnapshotCache) :
    (∀ (run : JobRunner V3Chart) (chart : V3Chart),
      (s.runV3TestJobs run chart cache).1.2 = jobOutcomes run chart s.Tests 0 cache ∧
        (s.runV3TestJobs run chart cache).1.2.length = s.Tests.length ∧
        ∀ (i : Nat) (testJob : TestJob), s.Tests[i]? = some testJob →
          ∃ cacheBefore, (s.runV3TestJobs run chart cache).1.2[i]?
            = some (run testJob chart cacheBefore { Index := i }).1) ∧
    (∀ (run : JobRunner V2Chart) (chart : V2Chart),
      (s.runV2TestJobs run chart cache).1.2 = jobOutcomes run chart s.Tests 0 cache ∧
        (s.runV2TestJobs run chart cache).1.2.length = s.Tests.length ∧
        ∀ (i : Nat) (testJob : TestJob), s.Tests[i]? = some testJob →
          ∃ cacheBefore, (s.runV2TestJobs run chart cache).1.2[i]?
            = some (run testJob chart cacheBefore { Index := i }).1) := by
  constructor
  · intro run chart
    have h : (s.runV3TestJobs run chart cache).1.2 = jobOutcomes run chart s.Tests 0 cache := by
      simp [TestSuite.runV3TestJobs, runV3TestJobs_loop_results]
    refine ⟨h, by rw [h, jobOutcomes_length], ?_⟩
    intro i testJob hi
    obtain ⟨c, hc⟩ := jobOutcomes_getElem? run chart s.Tests 0 cache i testJob hi
    exact ⟨c, by rw [h, hc]; simp⟩
  · intro run chart
    have h : (s.runV2TestJobs run chart cache).1.2 = jobOutcomes run chart s.Tests 0 cache := by
      simp [TestSuite.runV2TestJobs, runV2TestJobs_loop_results]
    refine ⟨h, by rw [h, jobOutcomes_length], ?_⟩
    intro i testJob hi
    obtain ⟨c, hc⟩ := jobOutcomes_getElem? run chart s.Tests 0 cache i testJob hi
    exact ⟨c, by rw [h, hc]; simp⟩

theorem runTestJobs_one_result_per_job_witness :
    suiteJobs.Tests[1]? = some { Name := "second" } ∧
      (suiteJobs.runV3TestJobs runnerV3 exampleV3 {}).1.2
        = [{ Index := 0, DisplayName := "first", Passed := true },
           { Index := 1, DisplayName := "second", Passed := false }] ∧
      ∃ cacheBefore, (suiteJobs.runV3TestJobs runnerV3 exampleV3 {}).1.2[1]?
        = some (runnerV3 { Name := "second" } exampleV3 cacheBefore { Index := 1 }).1 :=
  ⟨rfl, by decide,
    ((runTestJobs_one_result_per_job suiteJobs {}).1 runnerV3 exampleV3).2.2 1
      { Name := "second" } rfl⟩

/-- C17. For a suite of the root package (route without separator) with an
empty allow-list, `prepareV3Chart` and `prepareV2Chart` succeed and return a
package equal to the input package in every field, the template list
included (same templates, same order). The functions are pure: the input
package is a value and is not written to. -/
theorem prepareChart_root_unrestricted_is_copy (s : TestSuite)
    (hroot : isRootRoute s.chartRoute) (hempty : s.Templates = []) :
    (∀ chart : V3Chart, s.prepareV3Chart chart = .ok chart) ∧
    (∀ chart : V2Chart, s.prepareV2Chart chart = .ok chart) := by
  have hlen : (stringsSplit s.chartRoute Separator).length ≤ 1 :=
    (root_iff_split_le_one _).mpr hroot
  constructor
  · intro chart
    unfold TestSuite.prepareV3Chart
    simp [hlen, hempty]
  · intro chart
    unfold TestSuite.prepareV2Chart
    simp [hlen, hempty]

theorem prepareChart_root_unrestricted_is_copy_witness :
    isRootRoute suiteJobs.chartRoute ∧ suiteJobs.Templates = [] ∧
      suiteJobs.prepareV3Chart exampleV3 = .ok exampleV3 ∧
      suiteJobs.prepareV2Chart exampleV2 = .ok exampleV2 :=
  ⟨by decide, rfl,
    (prepareChart_root_unrestricted_is_copy suiteJobs (by decide) rfl).1 exampleV3,
    (prepareChart_root_unrestricted_is_copy suiteJobs (by decide) rfl).2 exampleV2⟩

/-! ## One scoping algorithm for both package versions -/

theorem prepareV3Chart_check_names (templates : List V3File) (allowed : List String)
    (acc : List V3File) :
    (match prepareV3Chart.check templates allowed acc with
      | .error err => (.error err : Except String (List String))
      | .ok filtered => .ok (filtered.map (fun t => t.Name)))
      = scopeNames.check (templates.map (fun t => t.Name)) allowed
          (acc.map (fun t => t.Name)) := by
  induction allowed generalizing acc with
  | nil => simp [prepareV3Chart.check, scopeNames.check]
  | cons fileName rest ih =>
    have hfind : (templates.map (fun t => t.Name)).find? (fun n => matchesName fileName n)
        = (templates.find? (fun t => matchesName fileName t.Name)).map (fun t => t.Name) := by
      rw [List.find?_map]; rfl
    rw [prepareV3Chart.check, scopeNames.check, prepareV3Chart_find_eq, hfind]
    cases h : templates.find? (fun t => matchesName fileName t.Name) with
    | none => simp
    | some t =>
      have := ih (acc ++ [t])
      simpa using this

theorem prepareV3Chart_names (s : TestSuite) (chart : V3Chart) :
    namesV3 (s.prepareV3Chart chart)
      = scopeNames s.chartRoute s.Templates (chart.Templates.map (fun t => t.Name)) := by
  have htpl : (chart.Templates.filter (fun t => isTpl t.Name)).map (fun t => t.Name)
      = (chart.Templates.map (fun t => t.Name)).filter isTpl := by
    rw [List.filter_map]; rfl
  by_cases hroot : isRootRoute s.chartRoute
  · by_cases hne : s.Templates = []
    · have hlen : (stringsSplit s.chartRoute Separator).length ≤ 1 :=
        (root_iff_split_le_one _).mpr hroot
      unfold TestSuite.prepareV3Chart
      simp [hlen, hne, scopeNames, hroot, namesV3]
    · rw [prepareV3Chart_root_eq s chart hroot hne]
      have hc := prepareV3Chart_check_names chart.Templates s.Templates []
      simp only [scopeNames, hne, hroot, false_and, if_false, if_true, List.map_nil] at hc ⊢
      rw [← hc]
      cases prepareV3Chart.check chart.Templates s.Templates [] with
      | error err => rfl
      | ok filtered => simp [namesV3, htpl]
  · rw [prepareV3Chart_sub_ok s chart hroot]
    simp [scopeNames, hroot, namesV3, htpl]

theorem prepareV2Chart_check_names (templates : List V2Template) (allowed : List String)
    (acc : List V2Template) :
    (match prepareV2Chart.check templates allowed acc with
      | .error err => (.error err : Except String (List String))
      | .ok filtered => .ok (filtered.map (fun t => t.Name)))
      = scopeNames.check (templates.map (fun t => t.Name)) allowed
          (acc.map (fun t => t.Name)) := by
  induction allowed generalizing acc with
  | nil => simp [prepareV2Chart.check, scopeNames.check]
  | cons fileName rest ih =>
    have hfind : (templates.map (fun t => t.Name)).find? (fun n => matchesName fileName n)
        = (templates.find? (fun t => matchesName fileName t.Name)).map (fun t => t.Name) := by
      rw [List.find?_map]; rfl
    rw [prepareV2Chart.check, scopeNames.check, prepareV2Chart_find_eq, hfind]
    cases h : templates.find? (fun t => matchesName fileName t.Name) with
    | none => simp
    | some t =>
      have := ih (acc ++ [t])
      simpa using this

theorem prepareV2Chart_names (s : TestSuite) (chart : V2Chart) :
    namesV2 (s.prepareV2Chart chart)
      = scopeNames s.chartRoute s.Templates (chart.Templates.map (fun t => t.Name)) := by
  have htpl : (chart.Templates.filter (fun t => isTpl t.Name)).map (fun t => t.Name)
      = (chart.Templates.map (fun t => t.Name)).filter isTpl := by
    rw [List.filter_map]; rfl
  by_cases hroot : isRootRoute s.chartRoute
  · by_cases hne : s.Templates = []
    · have hlen : (stringsSplit s.chartRoute Separator).length ≤ 1 :=
        (root_iff_split_le_one _).mpr hroot
      unfold TestSuite.prepareV2Chart
      simp [hlen, hne, scopeNames, hroot, namesV2]
    · rw [prepareV2Chart_root_eq s chart hroot hne]
      have hc := prepareV2Chart_check_names chart.Templates s.Templates []
      simp only [scopeNames, hne, hroot, false_and, if_false, if_true, List.map_nil] at hc ⊢
      rw [← hc]
      cases prepareV2Chart.check chart.Templates s.Templates [] with
      | error err => rfl
      | ok filtered => simp [namesV2, htpl]
  · rw [prepareV2Chart_sub_ok s chart hroot]
    simp [scopeNames, hroot, namesV2, htpl]

/-- C18. `prepareV2Chart` and `prepareV3Chart` are the same algorithm: for
every suite (route and allow-list) and every v2 and v3 package that carry
the same template names in the same order, either both fail, with the same
error text, or both succeed, with template lists that have the same names in
the same order. -/
theorem prepareV2Chart_prepareV3Chart_agree (s : TestSuite) (chart2 : V2Chart)
    (chart3 : V3Chart)
    (hnames : chart2.Templates.map (fun t => t.Name) = chart3.Templates.map (fun t => t.Name)) :
    namesV2 (s.prepareV2Chart chart2) = namesV3 (s.prepareV3Chart chart3) ∧
      (∀ err, s.prepareV2Chart chart2 = .error err ↔ s.prepareV3Chart chart3 = .error err) ∧
      ((∃ scoped2, s.prepareV2Chart chart2 = .ok scoped2) ↔
        (∃ scoped3, s.prepareV3Chart chart3 = .ok scoped3)) ∧
      (∀ scoped2 scoped3, s.prepareV2Chart chart2 = .ok scoped2 →
        s.prepareV3Chart chart3 = .ok scoped3 →
        scoped2.Templates.map (fun t => t.Name) = scoped3.Templates.map (fun t => t.Name)) := by
  have h : namesV2 (s.prepareV2Chart chart2) = namesV3 (s.prepareV3Chart chart3) := by
    rw [prepareV2Chart_names, prepareV3Chart_names, hnames]
  refine ⟨h, ?_, ?_, ?_⟩
  · intro err
    cases h2 : s.prepareV2Chart chart2 <;> cases h3 : s.prepareV3Chart chart3 <;>
      simp [h2, h3, namesV2, namesV3] at h ⊢
    exact ⟨fun e => by rw [← h, e], fun e => by rw [h, e]⟩
  · cases h2 : s.prepareV2Chart chart2 <;> cases h3 : s.prepareV3Chart chart3 <;>
      simp [h2, h3, namesV2, namesV3] at h ⊢
  · intro scoped2 scoped3 h2 h3
    simpa [h2, h3, namesV2, namesV3] using h

theorem prepareV2Chart_prepareV3Chart_agree_witness :
    exampleV2.Templates.map (fun t => t.Name) = exampleV3.Templates.map (fun t => t.Name) ∧
      namesV2 (suiteX.prepareV2Chart exampleV2) = namesV3 (suiteX.prepareV3Chart exampleV3) ∧
      namesV3 (suiteX.prepareV3Chart exampleV3)
        = .ok ["templates/x.yaml", "templates/_helpers.tpl"] ∧
      (suiteMissing.prepareV2Chart exampleV2
          = .error "template file `templates/missing.yaml` not found in chart" ↔
        suiteMissing.prepareV3Chart exampleV3
          = .error "template file `templates/missing.yaml` not found in chart") :=
  ⟨rfl, (prepareV2Chart_prepareV3Chart_agree suiteX exampleV2 exampleV3 rfl).1, rfl,
    (prepareV2Chart_prepareV3Chart_agree suiteMissing exampleV2 exampleV3 rfl).2.1 _⟩

/-! ## Value scoping over a chain -/

theorem scopeValuesWithRoutes_short (routes : List String) (values : ValueMap)
    (h : routes.length ≤ 1) : scopeValuesWithRoutes routes values = values := by
  rw [scopeValuesWithRoutes]
  simp [Nat.not_lt.mpr h]

theorem scopeValuesWithRoutes_concat (routes : List String) (last : String)
    (values : ValueMap) (h : routes ≠ []) :
    scopeValuesWithRoutes (routes ++ [last]) values
      = scopeValuesWithRoutes routes [(Value.str last, Value.map values)] := by
  have hlen : (routes ++ [last]).length > 1 := by
    have : 0 < routes.length := List.length_pos.mpr h
    simp; omega
  rw [scopeValuesWithRoutes]
  simp only [hlen, dite_true, List.dropLast_concat, List.getLast_append_singleton]

theorem nestUnder_concat (names : List String) (last : String) (values : ValueMap) :
    nestUnder (names ++ [last]) values
      = nestUnder names [(Value.str last, Value.map values)] := by
  induction names with
  | nil => rfl
  | cons name rest ih => simp [nestUnder, ih]

theorem scopeValuesWithRoutes_cons (first : String) (rest : List String)
    (values : ValueMap) :
    scopeValuesWithRoutes (first :: rest) values = nestUnder rest values := by
  induction rest using List.reverseRecOn generalizing values with
  | nil => exact scopeValuesWithRoutes_short [first] values (by simp)
  | append_singleton names last ih =>
    rw [← List.cons_append, scopeValuesWithRoutes_concat _ _ _ (by simp), ih,
      nestUnder_concat]

theorem descend_nestUnder (names : List String) (values : ValueMap) :
    descend names (nestUnder names values) = some values := by
  induction names with
  | nil => rfl
  | cons name rest ih => simp [nestUnder, descend, ih]

/-- C19. `scopeValuesWithRoutes` is total, and for every non-empty chain
`[r0, r1, ..., rn]` and every value map `M` it wraps `M` once per name after
the first and never under the first: the result is `{r1: {r2: ... {rn: M}}}`,
from which `M` is reached by descending through exactly the `n` names
`r1, ..., rn`. At each step of the recursion the map built so far becomes the
sole value under the next-outer name. A chain of length 1 and the empty chain
return `M` unchanged. -/
theorem scopeValuesWithRoutes_wraps_all_but_first (values : ValueMap) :
    (∀ (first : String) (rest : List String),
      scopeValuesWithRoutes (first :: rest) values = nestUnder rest values ∧
        descend rest (scopeValuesWithRoutes (first :: rest) values) = some values) ∧
    (∀ (routes : List String) (last : String), routes ≠ [] →
      scopeValuesWithRoutes (routes ++ [last]) values
        = scopeValuesWithRoutes routes [(Value.str last, Value.map values)]) ∧
    (∀ first : String, scopeValuesWithRoutes [first] values = values) ∧
    scopeValuesWithRoutes [] values = values := by
  refine ⟨fun first rest => ⟨scopeValuesWithRoutes_cons first rest values, ?_⟩,
    fun routes last h => scopeValuesWithRoutes_concat routes last values h,
    fun first => scopeValuesWithRoutes_short [first] values (by simp),
    scopeValuesWithRoutes_short [] values (by simp)⟩
  rw [scopeValuesWithRoutes_cons, descend_nestUnder]

theorem scopeValuesWithRoutes_wraps_all_but_first_witness :
    scopeValuesWithRoutes (["demo", "child"] ++ ["leaf"]) [(Value.str "k", Value.str "v")]
        = scopeValuesWithRoutes ["demo", "child"]
            [(Value.str "leaf", Value.map [(Value.str "k", Value.str "v")])] ∧
      scopeValuesWithRoutes ["demo", "child", "leaf"] [(Value.str "k", Value.str "v")]
        = [(Value.str "child", Value.map [(Value.str "leaf",
            Value.map [(Value.str "k", Value.str "v")])])] :=
  ⟨(scopeValuesWithRoutes_wraps_all_but_first [(Value.str "k", Value.str "v")]).2.1
      ["demo", "child"] "leaf" (by decide),
    ((scopeValuesWithRoutes_wraps_all_but_first [(Value.str "k", Value.str "v")]).1
      "demo" ["child", "leaf"]).1⟩

/-! ## Bounds of the route split -/

/-- The loop panics at the first round `m` whose read falls outside the
segment list, when the rounds before it stay inside. -/
theorem spliteChartRoutes_loop_panics (splited : List String) (fuel r m : Nat)
    (routes : List String)
    (hin : ∀ i, r ≤ i → i < m → i * 2 < splited.length)
    (hout : splited.length ≤ m * 2) (hrm : r ≤ m) (hfuel : m < r + fuel) :
    spliteChartRoutes.loop splited fuel r routes = .error ⟨m * 2, splited.length⟩ := by
  induction fuel generalizing r routes with
  | zero => omega
  | succ fuel ih =>
    by_cases heq : r = m
    · subst heq
      simp [spliteChartRoutes.loop, List.getElem?_eq_none hout]
    · have hlt : r < m := by omega
      have hidx : r * 2 < splited.length := hin r (Nat.le_refl r) hlt
      simp only [spliteChartRoutes.loop, List.getElem?_eq_getElem hidx]
      exact ih (r + 1) _ (fun i hi hi' => hin i (by omega) hi') (by omega) (by omega)

/-- C20. `spliteChartRoutes` stays within bounds exactly on routes with an
odd number of segments. With `2n+1` segments every index `2r` it reads
(`r ≤ n`) is valid and it returns a list. With `2n` segments (`n ≥ 1`) it
allocates `n+1` entries and panics on reading segment index `2n`, past the
end of the `2n` segments; on `parent/charts` it reads index 2 of 2
segments. -/
theorem spliteChartRoutes_in_bounds_iff_odd (routePath : String) :
    (∀ n, (stringsSplit routePath Separator).length = 2 * n + 1 →
      (∀ r, r < (stringsSplit routePath Separator).length / 2 + 1 →
        r * 2 < (stringsSplit routePath Separator).length) ∧
      ∃ routes, spliteChartRoutes routePath = .ok routes) ∧
    (∀ n, 1 ≤ n → (stringsSplit routePath Separator).length = 2 * n →
      (List.replicate ((stringsSplit routePath Separator).length / 2 + 1) "").length = n + 1 ∧
      spliteChartRoutes routePath = .error ⟨2 * n, 2 * n⟩) ∧
    ((∃ routes, spliteChartRoutes routePath = .ok routes) ↔
      (stringsSplit routePath Separator).length % 2 = 1) ∧
    spliteChartRoutes "parent/charts" = .error ⟨2, 2⟩ := by
  have hodd : ∀ n, (stringsSplit routePath Separator).length = 2 * n + 1 →
      ∃ routes, spliteChartRoutes routePath = .ok routes := by
    intro n h
    obtain ⟨out, h1, _, _⟩ := spliteChartRoutes_loop_spec (stringsSplit routePath Separator)
      (List.replicate ((stringsSplit routePath Separator).length / 2 + 1) "").length 0
      (List.replicate ((stringsSplit routePath Separator).length / 2 + 1) "")
      (by simp) (by intro i _ hi; simp at hi; omega)
    exact ⟨out, h1⟩
  have heven : ∀ n, 1 ≤ n → (stringsSplit routePath Separator).length = 2 * n →
      spliteChartRoutes routePath = .error ⟨2 * n, 2 * n⟩ := by
    intro n hn h
    have hp := spliteChartRoutes_loop_panics (stringsSplit routePath Separator)
      (List.replicate ((stringsSplit routePath Separator).length / 2 + 1) "").length 0 n
      (List.replicate ((stringsSplit routePath Separator).length / 2 + 1) "")
      (by intro i _ hi; omega) (by omega) (by omega) (by simp; omega)
    unfold spliteChartRoutes
    rw [hp, h, Nat.mul_comm]
  refine ⟨fun n h => ⟨fun r hr => by omega, hodd n h⟩,
    fun n hn h => ⟨by simp; omega, heven n hn h⟩, ⟨?_, ?_⟩, rfl⟩
  · rintro ⟨routes, hok⟩
    by_contra hne
    have hpos : 1 ≤ (stringsSplit routePath Separator).length := by
      rw [stringsSplit_length]; omega
    have := heven ((stringsSplit routePath Separator).length / 2) (by omega) (by omega)
    rw [this] at hok
    cases hok
  · intro h
    exact hodd ((stringsSplit routePath Separator).length / 2) (by omega)

theorem spliteChartRoutes_in_bounds_iff_odd_witness :
    (stringsSplit "demo/charts/child" Separator).length = 2 * 1 + 1 ∧
      (∃ routes, spliteChartRoutes "demo/charts/child" = .ok routes) ∧
      (stringsSplit "demo/charts/child/charts" Separator).length = 2 * 2 ∧
      spliteChartRoutes "demo/charts/child/charts" = .error ⟨2 * 2, 2 * 2⟩ :=
  ⟨by decide, ((spliteChartRoutes_in_bounds_iff_odd "demo/charts/child").1 1 (by decide)).2,
    by decide,
    ((spliteChartRoutes_in_bounds_iff_odd "demo/charts/child/charts").2.1 2 (by decide)
      (by decide)).2⟩

end unittest
